import Mathlib

/-!
Shallow embedding of the HoloStage.js simulation core (src/unnamed/part_000).

Modeling conventions:
- JS numbers are modeled as exact rationals (`ℚ`); the claims under study are
  about control flow and exact arithmetic, not floating-point rounding.
- JS `undefined` / `null` are modeled with `Option`; JS truthiness is modeled
  explicitly: for strings the empty string is falsy (`strTruthy`), for numbers
  `0` is falsy (`jsOr` renders `x || d`; `ℚ` has no NaN).
- Mutation of the shared `scene.entities` array is modeled by index-based
  updates on a `List Entity`: the JS code filters reference arrays
  (statics/actors/projectiles) before iterating and then mutates objects in
  place, which corresponds to fixing index lists up front and reading the
  current list state at each use.
- Out-of-scope adapters per the spec (DOM-attribute parsing, weapon-preset
  string resolution, canvas rendering, the scoreboard DOM widget) are not
  modeled; entities carry already-resolved data, as §6 of the spec assumes.
- `performance.now()/1000` (wall-clock seconds, used only by `tryAttack`) is
  passed in as the explicit parameter `now`.
-/

namespace HoloStage

/-- JS `x || d` for a numeric `x`: `0` is falsy. -/
def jsOr (x d : ℚ) : ℚ := if x = 0 then d else x

/-- JS `x || d` for an optional string `x`: `undefined`/`null` and `""` are falsy. -/
def jsOrStr (x : Option String) (d : String) : String :=
  match x with
  | some s => if s == "" then d else s
  | none => d

/-- JS truthiness of an optional string. -/
def strTruthy : Option String → Bool
  | none => false
  | some s => !(s == "")

/-- Key-binding test `controls.k && keyState[controls.k]` (part_000 lines 466-471):
the binding must be a truthy string and the bound key currently held. -/
def keyHeld (ks : String → Bool) (k : Option String) : Bool :=
  strTruthy k && ks (k.getD "")

/-- A control scheme: logical action to key identifier (part_000 lines 46-71, 94).
`sprint` is accepted by the parser but never read by `update`. -/
structure ControlMap where
  left : Option String := none
  right : Option String := none
  up : Option String := none
  down : Option String := none
  jump : Option String := none
  attack : Option String := none
  sprint : Option String := none
  deriving DecidableEq

/-- A resolved weapon spec. Numeric fields hold the value when
`parseFloat` would yield a finite number, `none` otherwise (unparsable). -/
structure Weapon where
  name : Option String := none
  damage : Option ℚ := none
  cooldown : Option ℚ := none
  projectileSpeed : Option ℚ := none
  color : Option String := none
  sizeW : Option ℚ := none
  sizeH : Option ℚ := none
  deriving DecidableEq

/-- Default weapon object installed by `addEntity` (part_000 lines 396-403). -/
def pulseWeapon : Weapon :=
  { name := some "pulse"
    damage := some 10
    cooldown := some (2/5)
    projectileSpeed := some 12
    color := some "#ff6ad5"
    sizeW := some (3/10)
    sizeH := some (3/10) }

/-- A simulation entity.  The field defaults are exactly the defaults object of
`scene.addEntity` (part_000 lines 377-407), so a structure literal
`{ physics := "static", vx := 5 : Entity }` models
`scene.addEntity({ physics: 'static', vx: 5 })` — `Object.assign` of the
defaults with a config.  `pos` is split into `posX`/`posY`/`posZ` and `size`
into `sizeW`/`sizeH` (the JS arrays are only ever indexed at fixed positions).
The fields `damage`, `owner`, `life` are absent from the defaults object in
the source (undefined); they are read only through `|| 0` or `===`
comparisons, so `0` / `none` model them faithfully.  `sprite` (a raster
handle) is rendering-only and not modeled. -/
structure Entity where
  name : String := "entity"
  posX : ℚ := 0
  posY : ℚ := 0
  posZ : ℚ := 0
  sizeW : ℚ := 1
  sizeH : ℚ := 1
  color : String := "#ffffff"
  physics : String := "none"
  controls : Option ControlMap := none
  vx : ℚ := 0
  vy : ℚ := 0
  speed : ℚ := 4
  jumpForce : ℚ := 10
  onGround : Bool := false
  moveMode : String := "platformer"
  team : Option String := none
  health : ℚ := 100
  maxHealth : ℚ := 100
  score : ℚ := 0
  weapon : Option Weapon := some pulseWeapon
  trackScore : Bool := false
  lastAttack : ℚ := 0
  kind : String := "actor"
  damage : ℚ := 0
  owner : Option String := none
  life : ℚ := 0
  dead : Bool := false
  deriving DecidableEq

/-- A timeline event (part_000 line 418): `{ time: t, fn, fired: false }`.
The callback `fn` is opaque to the scheduler; it is modeled by an `id` (so
invocations can be logged) and a `throws` flag (whether it raises — the
engine catches and logs the error, part_000 lines 447-452). -/
structure TEvent where
  time : ℚ
  fired : Bool := false
  id : ℕ := 0
  throws : Bool := false
  deriving DecidableEq

/-- Scene state relevant to the simulation step (part_000 lines 369-423).
`createEmptyScene` leaves `time` and `multiplayer` undefined: `scene.time` is
read as `(scene.time || 0)` so `0` models it, and the combat gate tests
`scene.multiplayer !== false` so `true` models it. -/
structure Scene where
  entities : List Entity := []
  timelineEvents : List TEvent := []
  time : ℚ := 0
  multiplayer : Bool := true
  deriving DecidableEq

/-- Game options relevant to the simulation step (part_000 lines 143-180):
`gravity` defaults to 0 and `multiplayer` to `true` (read as `!== false`).
`defaultWeapon` is not among the defaults; `tryAttack` reads it through
`|| {}`, i.e. as an empty override, which is what not modeling it renders. -/
structure Opts where
  gravity : ℚ := 0
  multiplayer : Bool := true
  deriving DecidableEq

/-- Entity-store add (part_000 lines 376-415): applies defaults (see `Entity`)
and pushes the entity at the end of the scene's collection. -/
def addEntity (scene : Scene) (ent : Entity) : Scene :=
  { scene with entities := scene.entities ++ [ent] }

/-- Timeline registration `scene.at(t, fn)` (part_000 lines 417-420). -/
def sceneAt (scene : Scene) (t : ℚ) (id : ℕ) (throws : Bool) : Scene :=
  { scene with timelineEvents :=
      scene.timelineEvents ++
        [{ time := t
           fired := false
           id := id
           throws := throws }] }

/-- Axis overlap of the two AABBs, x axis (part_000 line 594):
`Math.min(ax2, bx2) - Math.max(ax1, bx1)`. -/
def overlapX (a b : Entity) : ℚ :=
  min (a.posX + a.sizeW) (b.posX + b.sizeW) - max a.posX b.posX

/-- Axis overlap of the two AABBs, y axis (part_000 line 595). -/
def overlapY (a b : Entity) : ℚ :=
  min (a.posY + a.sizeH) (b.posY + b.sizeH) - max a.posY b.posY

/-- AABB overlap test (part_000 lines 648-659), strict inequalities. -/
def checkOverlap (a b : Entity) : Bool :=
  decide (a.posX < b.posX + b.sizeW) && decide (a.posX + a.sizeW > b.posX) &&
  decide (a.posY < b.posY + b.sizeH) && decide (a.posY + a.sizeH > b.posY)

/-- Dynamic-vs-static AABB resolution (part_000 lines 583-615).  Returns the
updated dynamic entity (the JS mutates `dynamicEnt` only). -/
def resolveCollision (dynamicEnt staticEnt : Entity) : Entity :=
  let oX := overlapX dynamicEnt staticEnt
  let oY := overlapY dynamicEnt staticEnt
  if oX ≤ 0 ∨ oY ≤ 0 then dynamicEnt
  else if oX < oY then
    if dynamicEnt.posX < staticEnt.posX then
      { dynamicEnt with posX := dynamicEnt.posX - oX, vx := 0 }
    else
      { dynamicEnt with posX := dynamicEnt.posX + oX, vx := 0 }
  else
    if dynamicEnt.posY < staticEnt.posY then
      { dynamicEnt with posY := dynamicEnt.posY - oY, onGround := true, vy := 0 }
    else
      { dynamicEnt with posY := dynamicEnt.posY + oY, vy := 0 }

/-- Team guard `x.team && y.team && x.team === y.team` (part_000 lines 624, 638):
both teams must be truthy (non-null, non-empty) and equal. -/
def teamsMatch : Option String → Option String → Bool
  | some s, some t => !(s == "") && !(t == "") && s == t
  | _, _ => false

/-- Indices of the non-projectile entities (part_000 line 618:
`scene.entities.filter(e => e.kind !== 'projectile')` collects references;
indices into the list model those references). -/
def actorIndices (ents : List Entity) : List ℕ :=
  (List.range ents.length).filter (fun i =>
    match ents[i]? with
    | some e => !(e.kind == "projectile")
    | none => false)

/-- Indices of the projectile entities (part_000 line 619). -/
def projIndices (ents : List Entity) : List ℕ :=
  (List.range ents.length).filter (fun i =>
    match ents[i]? with
    | some e => e.kind == "projectile"
    | none => false)

/-- Score credit on a hit (part_000 lines 627-628): find the first entity
whose name equals the projectile's `owner` and add the damage to its score.
An absent owner (`undefined`) never equals a string name. -/
def creditOwner (ents : List Entity) (ownerName : Option String) (amt : ℚ) : List Entity :=
  match ownerName with
  | none => ents
  | some o =>
    match ents.findIdx? (fun e => e.name == o) with
    | none => ents
    | some k =>
      match ents[k]? with
      | some ow => ents.set k { ow with score := jsOr ow.score 0 + amt }
      | none => ents

/-- One projectile-vs-actor check (part_000 lines 622-631): skip if the actor
is the owner, skip on matching truthy teams, otherwise on AABB overlap damage
the actor, credit the owner, and mark the projectile dead.  Note the loop body
carries no `dead` test: a projectile already marked dead keeps hitting. -/
def projVsActor (ents : List Entity) (p a : ℕ) : List Entity :=
  match ents[p]?, ents[a]? with
  | some proj, some actor =>
    if proj.owner == some actor.name then ents
    else if teamsMatch proj.team actor.team then ents
    else if checkOverlap proj actor then
      let ents1 := ents.set a { actor with health := actor.health - jsOr proj.damage 0 }
      let ents2 := creditOwner ents1 proj.owner (jsOr proj.damage 0)
      match ents2[p]? with
      | some proj2 => ents2.set p { proj2 with dead := true }
      | none => ents2
    else ents
  | _, _ => ents

/-- Decision part of `projVsActor`: does projectile `p` damage actor `a`
(owner check, team check, AABB overlap), as read off the current list. -/
def projHitsB (ents : List Entity) (p a : ℕ) : Bool :=
  match ents[p]?, ents[a]? with
  | some proj, some actor =>
    !(proj.owner == some actor.name) && !(teamsMatch proj.team actor.team) &&
      checkOverlap proj actor
  | _, _ => false

/-- Inner loop of the projectile pass: one projectile against every actor,
in actor order (part_000 lines 621-632). -/
def innerPass (actorIdx : List ℕ) (p : ℕ) (ents : List Entity) : List Entity :=
  actorIdx.foldl (fun cur a => projVsActor cur p a) ents

/-- One actor-vs-actor contact check (part_000 lines 636-643): skip on
matching truthy teams, otherwise on AABB overlap both lose the fixed contact
damage 5. -/
def contactHit (ents : List Entity) (i j : ℕ) : List Entity :=
  match ents[i]?, ents[j]? with
  | some a, some b =>
    if teamsMatch a.team b.team then ents
    else if checkOverlap a b then
      let ents1 := ents.set i { a with health := a.health - 5 }
      match ents1[j]? with
      | some b1 => ents1.set j { b1 with health := b1.health - 5 }
      | none => ents1
    else ents
  | _, _ => ents

/-- Ordered pairs `(i, j)` with `i` before `j`, mirroring the double `for`
loop over the actors array (part_000 lines 634-635). -/
def pairsOf : List ℕ → List (ℕ × ℕ)
  | [] => []
  | x :: xs => xs.map (fun y => (x, y)) ++ pairsOf xs

/-- Combat step (part_000 lines 617-646): the actor and projectile reference
lists are collected once, then the projectile-vs-actor pass runs, then the
actor-vs-actor contact pass. -/
def handlePvp (ents : List Entity) : List Entity :=
  let actorIdx := actorIndices ents
  let projIdx := projIndices ents
  let afterProj := projIdx.foldl (fun cur p => innerPass actorIdx p cur) ents
  (pairsOf actorIdx).foldl (fun cur ij => contactHit cur ij.1 ij.2) afterProj

/-- Attack attempt (part_000 lines 540-581).  `now` is
`performance.now() / 1000`.  The weapon spec used is
`Object.assign({}, game.options.defaultWeapon || {}, resolveWeaponSpec(ent.weapon, ...))`;
`defaultWeapon` is not among the option defaults and `resolveWeaponSpec` is
preset-string plumbing (out-of-scope adapter), so the entity carries the
resolved `Weapon` directly.  `parseFloat`+`Number.isFinite` fallbacks become
`Option.getD`: cooldown 0.2, damage 10, projectileSpeed 10, size [0.3, 0.3].
Returns `none` for a rejected attack (no weapon, or cooldown not elapsed),
otherwise the updated attacker and the single spawned projectile (the JS
appends it to `scene.entities` via `scene.addEntity`; the random name suffix
is irrelevant to the simulation and dropped). -/
def tryAttack (ent : Entity) (now : ℚ) : Option (Entity × Entity) :=
  match ent.weapon with
  | none => none
  | some weapon =>
    let cooldown : ℚ := weapon.cooldown.getD (1/5)
    if now - jsOr ent.lastAttack 0 < cooldown then none
    else
      let ent1 : Entity := { ent with lastAttack := now }
      let dir : ℚ := if ent1.vx ≥ 0 then 1 else -1
      let damage := weapon.damage.getD 10
      let projectileSpeed := weapon.projectileSpeed.getD 10
      let size : Option (ℚ × ℚ) :=
        match weapon.sizeW, weapon.sizeH with
        | some w, some h => some (w, h)
        | _, _ => none
      let proj : Entity :=
        { name := ent1.name ++ "-shot"
          posX := ent1.posX + (if dir > 0 then ent1.sizeW else -(1/5))
          posY := ent1.posY + ent1.sizeH / 2
          posZ := ent1.posZ
          sizeW := (size.getD (3/10, 3/10)).1
          sizeH := (size.getD (3/10, 3/10)).2
          color := jsOrStr weapon.color "#ff6ad5"
          physics := "none"
          controls := none
          vx := projectileSpeed * dir
          vy := 0
          damage := damage
          owner := some ent1.name
          team := ent1.team
          kind := "projectile"
          life := 3 }
      some (ent1, proj)

/-- Timeline scheduler sweep (part_000 lines 444-453): for each event in
registration order, if it is unfired and the elapsed time `t` has reached its
fire time, set `fired := true` and invoke the callback.  The second component
logs the ids of the invoked callbacks in order.  The JS wraps each invocation
in try/catch, so a throwing callback (the `throws` flag) changes nothing for
the remaining events — accordingly the sweep never consults `throws`. -/
def fireEvents (t : ℚ) : List TEvent → List TEvent × List ℕ
  | [] => ([], [])
  | evt :: rest =>
    if !evt.fired && decide (t ≥ evt.time) then
      let r := fireEvents t rest
      ({ evt with fired := true } :: r.1, evt.id :: r.2)
    else
      let r := fireEvents t rest
      (evt :: r.1, r.2)

/-- Velocity part of the Control Resolver (part_000 lines 462-477): horizontal
velocity from held left/right keys; vertical from held up/down keys only in
topdown mode or physics `none`, otherwise the current vertical velocity is
kept for gravity; the jump branch (line 471) fires only when the jump key is
held, physics is dynamic and `onGround` holds, setting `vy := -jumpForce` —
and is then overwritten by the unconditional `ent.vy = vy` of line 477, which
uses the `vy` computed on line 464 from the pre-jump state. -/
def controlVel (ks : String → Bool) (controls : ControlMap) (ent1 : Entity) : Entity :=
  let speed := jsOr ent1.speed 4
  let freeMove := ent1.moveMode == "topdown" || ent1.physics == "none"
  let vy0 : ℚ := if freeMove then 0 else ent1.vy
  let vx1 : ℚ := (if keyHeld ks controls.left then -speed else 0) +
                 (if keyHeld ks controls.right then speed else 0)
  let vy1 : ℚ := vy0 + (if keyHeld ks controls.up && freeMove then -speed else 0) +
                 (if keyHeld ks controls.down && freeMove then speed else 0)
  let entJ := if keyHeld ks controls.jump && ent1.physics == "dynamic" && ent1.onGround
    then { ent1 with vy := -ent1.jumpForce, onGround := false } else ent1
  { entJ with vx := vx1, vy := vy1 }

/-- Control Resolver (part_000 lines 460-482): nothing without a control
scheme; otherwise resolve velocity and, when the attack key is held, attempt
an attack (which may update `lastAttack` and spawn a projectile). -/
def controlPhase (ks : String → Bool) (now : ℚ) (ent1 : Entity) : Entity × Option Entity :=
  match ent1.controls with
  | none => (ent1, none)
  | some controls =>
    let entV := controlVel ks controls ent1
    if keyHeld ks controls.attack then
      match tryAttack entV now with
      | some r => (r.1, some r.2)
      | none => (entV, none)
    else (entV, none)

/-- Static-collision sweep for one dynamic entity (part_000 lines 495-498):
fold `resolveCollision` over the static reference list, skipping the entity
itself, reading each obstacle from the current list state. -/
def collideStatics (cur : List Entity) (i : ℕ) (staticIdx : List ℕ) (e : Entity) : Entity :=
  staticIdx.foldl (fun e2 j =>
    if j == i then e2
    else match cur[j]? with
      | some obstacle => resolveCollision e2 obstacle
      | none => e2) e

/-- Gravity application for dynamic entities (part_000 lines 484-486):
`ent.vy += gravity * dt`. -/
def gravityPhase (opts : Opts) (dt : ℚ) (e : Entity) : Entity :=
  if e.physics == "dynamic" then { e with vy := e.vy + opts.gravity * dt } else e

/-- Position integration (part_000 lines 491-492), unconditional for every
entity: `pos += v * dt` on x then y. -/
def integratePhase (dt : ℚ) (e : Entity) : Entity :=
  { e with posX := e.posX + e.vx * dt, posY := e.posY + e.vy * dt }

/-- Collision resolution gate (part_000 lines 494-499): only dynamic entities
are resolved against the static list. -/
def collidePhase (cur : List Entity) (i : ℕ) (staticIdx : List ℕ) (e : Entity) : Entity :=
  if e.physics == "dynamic" then collideStatics cur i staticIdx e else e

/-- Projectile aging (part_000 lines 501-504): `life = (life || 0) - dt`, and
the projectile is marked dead when the new life is `≤ 0`. -/
def agePhase (dt : ℚ) (e : Entity) : Entity :=
  if e.kind == "projectile" then
    let life := jsOr e.life 0 - dt
    { e with life := life, dead := if life ≤ 0 then true else e.dead }
  else e

/-- Death from exhausted health (part_000 lines 506-508); `Number.isFinite`
always holds for `ℚ`. -/
def deathPhase (e : Entity) : Entity :=
  if decide (e.health ≤ 0) && !e.dead then { e with dead := true } else e

/-- Death rollback (part_000 lines 510-514): a dead projectile keeps its
position (it is about to be reaped), a dead non-projectile rolls back to the
pre-integration position. -/
def rollbackPhase (prevX prevY : ℚ) (e : Entity) : Entity :=
  if e.dead && e.kind == "projectile" then e
  else if e.dead && !(e.kind == "projectile") then { e with posX := prevX, posY := prevY }
  else e

/-- Per-entity body of the physics loop (part_000 lines 458-515), acting on
the current entity list `cur` at index `i`: reset `onGround`; run the Control
Resolver; then gravity, position integration (remembering the
pre-integration position), static-collision resolution, projectile aging,
health death check and the dead-rollback, in source order.  The result is
the updated entity together with the projectile spawned by the attack, if
any. -/
def stepEntityCore (opts : Opts) (ks : String → Bool) (now dt : ℚ)
    (staticIdx : List ℕ) (cur : List Entity) (i : ℕ) (ent0 : Entity) : Entity × Option Entity :=
  let ent1 := { ent0 with onGround := false }
    let ctl : Entity × Option Entity := controlPhase ks now ent1
    let ent3 : Entity := gravityPhase opts dt ctl.1
    let prevX := ent3.posX
    let prevY := ent3.posY
    let ent8 : Entity := rollbackPhase prevX prevY
      (deathPhase (agePhase dt (collidePhase cur i staticIdx (integratePhase dt ent3))))
    (ent8, ctl.2)

/-- Write-back of the per-entity body: store the updated entity at its slot
and append the spawned projectile, if any (part_000 lines 458-515; the
`scene.addEntity` inside `tryAttack` pushes onto `scene.entities`). -/
def stepEntity (opts : Opts) (ks : String → Bool) (now dt : ℚ)
    (staticIdx : List ℕ) (cur : List Entity) (i : ℕ) : List Entity :=
  match cur[i]? with
  | none => cur
  | some ent0 =>
    let r := stepEntityCore opts ks now dt staticIdx cur i ent0
    match r.2 with
    | some proj => (cur.set i r.1) ++ [proj]
    | none => cur.set i r.1

/-- Physics phase of `update` (part_000 lines 455-515): the static reference
list is filtered once, then every entity present at the start of the step is
processed in order (`forEach` does not visit entities appended during the
loop, and appended projectiles are `physics: 'none'` in any case). -/
def physicsLoop (opts : Opts) (ks : String → Bool) (now dt : ℚ)
    (ents : List Entity) : List Entity :=
  let staticIdx := (List.range ents.length).filter (fun j =>
    match ents[j]? with
    | some e => e.physics == "static"
    | none => false)
  (List.range ents.length).foldl (stepEntity opts ks now dt staticIdx) ents

/-- Entity pipeline of one step before reaping: physics loop, then the combat
step when multiplayer is enabled at both scene and game scope
(part_000 lines 517-519). -/
def stepEntities (opts : Opts) (ks : String → Bool) (now dt : ℚ) (mp : Bool)
    (ents : List Entity) : List Entity :=
  let after := physicsLoop opts ks now dt ents
  if mp then handlePvp after else after

/-- One simulation step `update(dt)` (part_000 lines 437-538): advance elapsed
time, sweep the timeline, run the entity pipeline, reap dead entities.
The scoreboard push, key-edge clear and camera follow (lines 523-537) touch
no scene state and are not modeled. -/
def updateStep (opts : Opts) (ks : String → Bool) (now dt : ℚ) (scene : Scene) : Scene :=
  let t := jsOr scene.time 0 + dt
  let evts := (fireEvents t scene.timelineEvents).1
  let ents := stepEntities opts ks now dt (scene.multiplayer && opts.multiplayer) scene.entities
  { scene with
    time := t
    timelineEvents := evts
    entities := ents.filter (fun e => !e.dead) }

/-! Helper lemmas. -/

theorem jsOr_zero (x : ℚ) : jsOr x 0 = x := by
  unfold jsOr; split <;> simp_all

theorem overlapX_comm (a b : Entity) : overlapX a b = overlapX b a := by
  unfold overlapX; rw [min_comm, max_comm]

theorem overlapY_comm (a b : Entity) : overlapY a b = overlapY b a := by
  unfold overlapY; rw [min_comm, max_comm]

theorem checkOverlap_false_left (a b : Entity) (hwa : 0 < a.sizeW) (hwb : 0 < b.sizeW)
    (h : overlapX a b ≤ 0) : checkOverlap a b = false := by
  rw [Bool.eq_false_iff]
  intro hT
  unfold checkOverlap at hT
  simp only [Bool.and_eq_true, decide_eq_true_eq, gt_iff_lt] at hT
  obtain ⟨⟨⟨h1, h2⟩, _⟩, _⟩ := hT
  have hx : 0 < overlapX a b := by
    unfold overlapX
    have hmax : max a.posX b.posX < min (a.posX + a.sizeW) (b.posX + b.sizeW) :=
      max_lt (lt_min (by linarith) h1) (lt_min h2 (by linarith))
    linarith
  linarith

theorem checkOverlap_false_up (a b : Entity) (hha : 0 < a.sizeH) (hhb : 0 < b.sizeH)
    (h : overlapY a b ≤ 0) : checkOverlap a b = false := by
  rw [Bool.eq_false_iff]
  intro hT
  unfold checkOverlap at hT
  simp only [Bool.and_eq_true, decide_eq_true_eq, gt_iff_lt] at hT
  obtain ⟨⟨⟨_, _⟩, h3⟩, h4⟩ := hT
  have hy : 0 < overlapY a b := by
    unfold overlapY
    have hmax : max a.posY b.posY < min (a.posY + a.sizeH) (b.posY + b.sizeH) :=
      max_lt (lt_min (by linarith) h3) (lt_min h4 (by linarith))
    linarith
  linarith

/-! Claim theorems. -/

/-- C5 (confirmed): when a dynamic and a static AABB overlap strictly on both
axes, `resolveCollision` changes the dynamic entity only on the axis of
smaller overlap, by exactly that overlap, with the push direction chosen by
comparing the boxes' origin coordinates on that axis; the velocity component
of that axis is zeroed; `onGround` is set to `true` exactly in the
vertical-resolution case with the dynamic box above the static one (smaller
origin y).  If either overlap is `≤ 0`, the entity is returned unchanged —
position, velocity and `onGround` untouched.  The record updates in the
statement make "no other field changes" explicit. -/
theorem c5_mtv_resolution (d s : Entity) :
    (overlapX d s ≤ 0 ∨ overlapY d s ≤ 0 → resolveCollision d s = d) ∧
    (0 < overlapX d s → overlapX d s < overlapY d s →
      resolveCollision d s =
        if d.posX < s.posX then { d with posX := d.posX - overlapX d s, vx := 0 }
        else { d with posX := d.posX + overlapX d s, vx := 0 }) ∧
    (0 < overlapY d s → overlapY d s < overlapX d s →
      resolveCollision d s =
        if d.posY < s.posY then
          { d with posY := d.posY - overlapY d s, vy := 0, onGround := true }
        else { d with posY := d.posY + overlapY d s, vy := 0 }) := by
  refine ⟨fun h => ?_, fun h1 h2 => ?_, fun h1 h2 => ?_⟩
  · unfold resolveCollision
    rw [if_pos h]
  · unfold resolveCollision
    rw [if_neg (by push_neg; constructor <;> linarith), if_pos h2]
  · unfold resolveCollision
    rw [if_neg (by push_neg; constructor <;> linarith), if_neg (by linarith)]

/-- Witness for C5 at the spec's landing scenario: a 1×1 box that moved to
y = 9.5 over a static slab at y ∈ [10, 11] is pushed back up to y = 9 with
`onGround` set and vertical velocity zeroed. -/
theorem c5_mtv_resolution_witness :
    resolveCollision { posY := 19/2, vy := 1/2 : Entity }
        { posY := 10, sizeW := 20, physics := "static" : Entity } =
      { posY := 9, vy := 0, onGround := true : Entity } := by
  have h := (c5_mtv_resolution { posY := 19/2, vy := 1/2 : Entity }
    { posY := 10, sizeW := 20, physics := "static" : Entity }).2.2
    (by norm_num [overlapY]) (by norm_num [overlapX, overlapY])
  rw [h]
  norm_num [overlapY]

/-- C6 (confirmed): with a resolved weapon present, an attack at time `now`
with `now - lastAttack` below the effective cooldown is rejected — `tryAttack`
returns `none`, so nothing is spawned and nothing is mutated; with
`now - lastAttack` at or above the cooldown, exactly one projectile is
produced and the attacker is updated only in `lastAttack := now`.  The
effective cooldown is `weapon.cooldown.getD (1/5)`: an unparsable cooldown
(`none`, i.e. `Number.isFinite(parseFloat(...))` fails) behaves as 0.2
seconds.  (`ent.lastAttack || 0` is the identity on `ℚ`, `jsOr_zero`.) -/
theorem c6_attack_cooldown (ent : Entity) (now : ℚ) (w : Weapon)
    (hw : ent.weapon = some w) :
    (now - ent.lastAttack < w.cooldown.getD (1/5) → tryAttack ent now = none) ∧
    (w.cooldown.getD (1/5) ≤ now - ent.lastAttack →
      ∃ proj, tryAttack ent now = some ({ ent with lastAttack := now }, proj) ∧
        proj.kind = "projectile" ∧ proj.owner = some ent.name ∧
        proj.team = ent.team ∧ proj.life = 3 ∧
        proj.damage = w.damage.getD 10) := by
  constructor
  · intro h
    unfold tryAttack
    rw [hw]
    simp only [jsOr_zero]
    rw [if_pos h]
  · intro h
    unfold tryAttack
    rw [hw]
    simp only [jsOr_zero]
    rw [if_neg (by linarith)]
    exact ⟨_, rfl, rfl, rfl, rfl, rfl, rfl⟩

/-- Witness for C6: a weapon whose cooldown did not parse behaves as the 0.2 s
default — an attack 0.1 s after the last one is rejected, an attack 2 s after
succeeds. -/
theorem c6_attack_cooldown_witness :
    tryAttack { weapon := some { cooldown := none } : Entity } (1/10) = none ∧
    (tryAttack { weapon := some { cooldown := none } : Entity } 2).isSome = true := by
  constructor
  · exact (c6_attack_cooldown _ (1/10) { cooldown := none } rfl).1 (by norm_num)
  · obtain ⟨proj, hp, -⟩ :=
      (c6_attack_cooldown { weapon := some { cooldown := none } : Entity } 2
        { cooldown := none } rfl).2 (by norm_num)
    rw [hp]
    rfl

/-- C8 (confirmed): one timeline sweep at elapsed time `t` invokes exactly the
callbacks of the unfired events whose fire time has been reached (`≤ t`, a
threshold crossing, not an equality test), once each, in registration order
(first conjunct); every such event comes out with `fired := true` and no event
is removed or otherwise changed (second conjunct — note the result does not
depend on the `throws` flags: a throwing callback is caught and stops
nothing); and after the sweep every event whose time has been reached is
marked fired, so a later sweep can never re-invoke it (third conjunct
combined with the first). -/
theorem c8_timeline_sweep (t : ℚ) (evts : List TEvent) :
    (fireEvents t evts).2 =
      (evts.filter (fun e => !e.fired && decide (e.time ≤ t))).map TEvent.id ∧
    (fireEvents t evts).1 =
      evts.map (fun e =>
        if !e.fired && decide (e.time ≤ t) then { e with fired := true } else e) ∧
    (∀ e ∈ (fireEvents t evts).1, e.time ≤ t → e.fired = true) := by
  induction evts with
  | nil => exact ⟨rfl, rfl, by intro e h; simp [fireEvents] at h⟩
  | cons evt rest ih =>
    obtain ⟨ih1, ih2, ih3⟩ := ih
    by_cases hc : (!evt.fired && decide (evt.time ≤ t)) = true
    · have hcp : evt.fired = false ∧ evt.time ≤ t := by
        simpa [Bool.and_eq_true, Bool.not_eq_true', decide_eq_true_eq] using hc
      refine ⟨?_, ?_, ?_⟩
      · simp [fireEvents, ge_iff_le, hc, ih1, List.filter_cons]
      · simp only [fireEvents, ge_iff_le, hc, if_true, List.map_cons, ih2]
      · intro e he hte
        simp only [fireEvents, ge_iff_le, hc, if_true, List.mem_cons] at he
        rcases he with he | he
        · rw [he]
        · exact ih3 e he hte
    · have hc' := hc
      rw [Bool.not_eq_true] at hc'
      have hcp : ¬(evt.fired = false ∧ evt.time ≤ t) := by
        intro hand
        exact hc (by simp [Bool.and_eq_true, Bool.not_eq_true', decide_eq_true_eq, hand.1, hand.2])
      refine ⟨?_, ?_, ?_⟩
      · simp [fireEvents, ge_iff_le, hc', ih1, List.filter_cons]
      · simp only [fireEvents, ge_iff_le, hc', Bool.false_eq_true, if_false,
          List.map_cons, ih2]
      · intro e he hte
        simp only [fireEvents, ge_iff_le, hc', Bool.false_eq_true, if_false,
          List.mem_cons] at he
        rcases he with he | he
        · subst he
          rcases Bool.eq_false_or_eq_true e.fired with hf | hf
          · exact hf
          · exact absurd ⟨hf, hte⟩ hcp
        · exact ih3 e he hte

/-- Witness for C8, the spec's jump scenario: an event registered at
`fireTime = 5` fires (exactly once, id logged) on a sweep that jumps the
elapsed time to 5.3, and comes out marked fired. -/
theorem c8_timeline_sweep_witness :
    (fireEvents (53/10) [{ time := 5, id := 7, throws := true : TEvent }]).2 = [7] ∧
    (fireEvents (53/10) [{ time := 5, id := 7, throws := true : TEvent }]).1.map
      TEvent.fired = [true] := by
  obtain ⟨h1, h2, -⟩ :=
    c8_timeline_sweep (53/10) [{ time := 5, id := 7, throws := true : TEvent }]
  constructor
  · rw [h1]
    norm_num [List.filter_cons]
  · rw [h2]
    norm_num

theorem projVsActor_id_of_noOverlap (ents : List Entity) (p a : ℕ)
    (h : ∀ proj actor, ents[p]? = some proj → ents[a]? = some actor →
      checkOverlap proj actor = false) :
    projVsActor ents p a = ents := by
  unfold projVsActor
  cases hp : ents[p]? with
  | none => rfl
  | some proj =>
    cases ha : ents[a]? with
    | none => rfl
    | some actor =>
      have hov := h proj actor hp ha
      by_cases h1 : (proj.owner == some actor.name) = true
      · simp [h1]
      · by_cases h2 : (teamsMatch proj.team actor.team) = true
        · simp [h1, h2]
        · simp [h1, h2, hov]

theorem contactHit_id_of_noOverlap (ents : List Entity) (i j : ℕ)
    (h : ∀ a b, ents[i]? = some a → ents[j]? = some b → checkOverlap a b = false) :
    contactHit ents i j = ents := by
  unfold contactHit
  cases hi : ents[i]? with
  | none => rfl
  | some a =>
    cases hj : ents[j]? with
    | none => rfl
    | some b =>
      have hov := h a b hi hj
      by_cases h1 : (teamsMatch a.team b.team) = true
      · simp [h1]
      · simp [h1, hov]

/-- C10 (confirmed): with nondegenerate (positive-size) boxes, two entities
whose AABBs touch only along an edge or corner — overlap exactly 0 on some
axis — are not colliding: `checkOverlap` is false both ways (strict
inequalities), `resolveCollision` returns the dynamic entity unchanged
(position, velocity, `onGround`), and the combat step on the two entities
applies no damage and no score change (it leaves the pair completely
unchanged), whatever their kinds and teams. -/
theorem c10_touch_is_no_collision (a b : Entity)
    (hwa : 0 < a.sizeW) (hha : 0 < a.sizeH) (hwb : 0 < b.sizeW) (hhb : 0 < b.sizeH)
    (h : overlapX a b = 0 ∨ overlapY a b = 0) :
    checkOverlap a b = false ∧ checkOverlap b a = false ∧
    resolveCollision a b = a ∧ resolveCollision b a = b ∧
    handlePvp [a, b] = [a, b] := by
  have hab : checkOverlap a b = false := by
    rcases h with h | h
    · exact checkOverlap_false_left a b hwa hwb (le_of_eq h)
    · exact checkOverlap_false_up a b hha hhb (le_of_eq h)
  have hba : checkOverlap b a = false := by
    rcases h with h | h
    · exact checkOverlap_false_left b a hwb hwa (by rw [overlapX_comm b a]; exact le_of_eq h)
    · exact checkOverlap_false_up b a hhb hha (by rw [overlapY_comm b a]; exact le_of_eq h)
  have hra : resolveCollision a b = a := by
    unfold resolveCollision
    rcases h with h | h
    · rw [if_pos (Or.inl (le_of_eq h))]
    · rw [if_pos (Or.inr (le_of_eq h))]
  have hrb : resolveCollision b a = b := by
    unfold resolveCollision
    rcases h with h | h
    · rw [if_pos (Or.inl (by rw [overlapX_comm b a]; exact le_of_eq h))]
    · rw [if_pos (Or.inr (by rw [overlapY_comm b a]; exact le_of_eq h))]
  have hcall1 : projVsActor [a, b] 0 1 = [a, b] := by
    apply projVsActor_id_of_noOverlap
    intro proj actor hp ha'
    rw [show (([a, b] : List Entity))[0]? = some a from rfl] at hp
    rw [show (([a, b] : List Entity))[1]? = some b from rfl] at ha'
    cases hp; cases ha'; exact hab
  have hcall2 : projVsActor [a, b] 1 0 = [a, b] := by
    apply projVsActor_id_of_noOverlap
    intro proj actor hp ha'
    rw [show (([a, b] : List Entity))[1]? = some b from rfl] at hp
    rw [show (([a, b] : List Entity))[0]? = some a from rfl] at ha'
    cases hp; cases ha'; exact hba
  have hcontact : contactHit [a, b] 0 1 = [a, b] := by
    apply contactHit_id_of_noOverlap
    intro x y hx hy
    rw [show (([a, b] : List Entity))[0]? = some a from rfl] at hx
    rw [show (([a, b] : List Entity))[1]? = some b from rfl] at hy
    cases hx; cases hy; exact hab
  refine ⟨hab, hba, hra, hrb, ?_⟩
  unfold handlePvp innerPass
  by_cases ka : (a.kind == "projectile") = true <;>
    by_cases kb : (b.kind == "projectile") = true <;>
    simp [actorIndices, projIndices, List.range_succ, ka, kb, pairsOf,
      hcall1, hcall2, hcontact]

/-- Witness for C10: a unit box at the origin and a unit box immediately to
its right touch along the shared edge x = 1 (overlap 0 on the x axis) and do
not collide; combat leaves both unchanged. -/
theorem c10_touch_is_no_collision_witness :
    checkOverlap { : Entity } { posX := 1 : Entity } = false ∧
    checkOverlap { posX := 1 : Entity } { : Entity } = false ∧
    resolveCollision { : Entity } { posX := 1 : Entity } = { : Entity } ∧
    resolveCollision { posX := 1 : Entity } { : Entity } = { posX := 1 : Entity } ∧
    handlePvp [{ : Entity }, { posX := 1 : Entity }] =
      [{ : Entity }, { posX := 1 : Entity }] :=
  c10_touch_is_no_collision { : Entity } { posX := 1 : Entity }
    (by norm_num) (by norm_num) (by norm_num) (by norm_num)
    (Or.inl (by norm_num [overlapX]))

theorem foldl_left_id {α β : Type} (f : α → β → α) (x : α) (l : List β)
    (h : ∀ b ∈ l, f x b = x) : l.foldl f x = x := by
  induction l with
  | nil => rfl
  | cons y ys ih =>
    rw [List.foldl_cons, h y (List.mem_cons_self y ys)]
    exact ih fun b hb => h b (List.mem_cons_of_mem y hb)

theorem mem_of_getElem_some {α : Type} {l : List α} {i : ℕ} {x : α}
    (h : l[i]? = some x) : x ∈ l := by
  obtain ⟨hlt, he⟩ := List.getElem?_eq_some.mp h
  exact he ▸ List.getElem_mem hlt

theorem teamsMatch_same (t : String) (ht : t ≠ "") :
    teamsMatch (some t) (some t) = true := by
  simp [teamsMatch, ht]

theorem projVsActor_id_of_team (ents : List Entity) (t : String) (ht : t ≠ "")
    (hall : ∀ e ∈ ents, e.team = some t) (p a : ℕ) :
    projVsActor ents p a = ents := by
  unfold projVsActor
  cases hp : ents[p]? with
  | none => rfl
  | some proj =>
    cases ha : ents[a]? with
    | none => rfl
    | some actor =>
      have h2 : teamsMatch proj.team actor.team = true := by
        rw [hall proj (mem_of_getElem_some hp), hall actor (mem_of_getElem_some ha)]
        exact teamsMatch_same t ht
      by_cases h1 : (proj.owner == some actor.name) = true
      · simp [h1]
      · simp [h1, h2]

theorem contactHit_id_of_team (ents : List Entity) (t : String) (ht : t ≠ "")
    (hall : ∀ e ∈ ents, e.team = some t) (i j : ℕ) :
    contactHit ents i j = ents := by
  unfold contactHit
  cases hi : ents[i]? with
  | none => rfl
  | some a =>
    cases hj : ents[j]? with
    | none => rfl
    | some b =>
      have h2 : teamsMatch a.team b.team = true := by
        rw [hall a (mem_of_getElem_some hi), hall b (mem_of_getElem_some hj)]
        exact teamsMatch_same t ht
      simp [h2]

theorem handlePvp_id_of_team (ents : List Entity) (t : String) (ht : t ≠ "")
    (hall : ∀ e ∈ ents, e.team = some t) : handlePvp ents = ents := by
  have h1 : (projIndices ents).foldl
      (fun cur p => (actorIndices ents).foldl (fun cur2 a => projVsActor cur2 p a) cur)
      ents = ents := by
    apply foldl_left_id
    intro p _
    apply foldl_left_id
    intro a _
    exact projVsActor_id_of_team ents t ht hall p a
  simp only [handlePvp, innerPass]
  rw [h1]
  apply foldl_left_id
  intro ij _
  exact contactHit_id_of_team ents t ht hall ij.1 ij.2

/-- C7 (corrected): two non-projectile actors sharing the same non-null,
NON-EMPTY team label never lose health to each other in the combat step — the
whole combat step is the identity on a scene containing the two actors and
any projectiles they spawned (projectiles spawned through `tryAttack` carry
the owner's team, final conjunct), for any positions and sizes ("any
overlapping configuration").  The non-empty restriction is what the code
enforces: the guard `a.team && b.team && a.team === b.team` treats the empty
string as falsy, so the original claim fails for the non-null team `""` (see
the counterexample). -/
theorem c7_same_nonempty_team_safe (A B : Entity) (projs : List Entity) (t : String)
    (ht : t ≠ "") (hA : A.team = some t) (hB : B.team = some t)
    (hprojs : ∀ p ∈ projs, p.team = some t) :
    ((handlePvp (A :: B :: projs))[0]?).map Entity.health = some A.health ∧
    ((handlePvp (A :: B :: projs))[1]?).map Entity.health = some B.health ∧
    (∀ ent now e' pr, tryAttack ent now = some (e', pr) → pr.team = ent.team) := by
  have hall : ∀ e ∈ (A :: B :: projs), e.team = some t := by
    intro e he
    rcases List.mem_cons.mp he with he | he
    · rw [he, hA]
    rcases List.mem_cons.mp he with he | he
    · rw [he, hB]
    · exact hprojs e he
  rw [handlePvp_id_of_team _ t ht hall]
  refine ⟨by simp, by simp, ?_⟩
  intro ent now e' pr h
  cases hw : ent.weapon with
  | none =>
    simp only [tryAttack, hw] at h
    exact Option.noConfusion h
  | some w =>
    simp only [tryAttack, hw] at h
    split at h
    · exact Option.noConfusion h
    · simp only [Option.some.injEq, Prod.mk.injEq] at h
      rw [← h.2]

/-- Witness for C7: two overlapping actors on team "red" and a projectile of
each, all overlapping, end the combat step with their health untouched. -/
theorem c7_same_nonempty_team_safe_witness :
    ((handlePvp [{ name := "A", team := some "red" : Entity },
        { name := "B", team := some "red", posX := 1/2 : Entity },
        { name := "A-shot", kind := "projectile", owner := some "A",
          team := some "red", damage := 10 : Entity }])[0]?).map Entity.health =
      some 100 ∧
    ((handlePvp [{ name := "A", team := some "red" : Entity },
        { name := "B", team := some "red", posX := 1/2 : Entity },
        { name := "A-shot", kind := "projectile", owner := some "A",
          team := some "red", damage := 10 : Entity }])[1]?).map Entity.health =
      some 100 := by
  have h := c7_same_nonempty_team_safe
    { name := "A", team := some "red" : Entity }
    { name := "B", team := some "red", posX := 1/2 : Entity }
    [{ name := "A-shot", kind := "projectile", owner := some "A",
       team := some "red", damage := 10 : Entity }]
    "red" (by decide) rfl rfl
    (by intro p hp; rcases List.mem_cons.mp hp with hp | hp
        · rw [hp]
        · cases hp)
  exact ⟨h.1, h.2.1⟩

set_option maxHeartbeats 1000000 in
/-- Counterexample for C7 as frozen: the empty string is a non-null team
label, and two actors both on team `""` DO damage each other on contact —
the guard `a.team && b.team && ...` treats `""` as falsy.  Both actors drop
from health 100 to 95 in one combat step. -/
theorem c7_empty_team_counterexample :
    (handlePvp [{ name := "A", team := some "" : Entity },
        { name := "B", team := some "", posX := 1/2 : Entity }]).map Entity.health =
      [95, 95] := by
  norm_num +decide [handlePvp, actorIndices, projIndices, innerPass, projVsActor,
    contactHit, creditOwner, pairsOf, teamsMatch, checkOverlap, jsOr,
    List.range_succ, List.filter_cons]

/-- Canonical form zeroing exactly the fields the combat step may write
(health, score, dead): equality of `combatView`s states that all other fields
agree. -/
def combatView (e : Entity) : Entity := { e with health := 0, score := 0, dead := false }

theorem set_same {α : Type} (l : List α) (k : ℕ) (v : α) (h : l[k]? = some v) :
    l.set k v = l := by
  apply List.ext_getElem?
  intro n
  rw [List.getElem?_set]
  by_cases he : k = n
  · subst he
    rw [if_pos rfl, if_pos (List.getElem?_eq_some.mp h).1, h]
  · rw [if_neg he]

theorem map_combatView_set (ents : List Entity) (k : ℕ) (e e' : Entity)
    (h : ents[k]? = some e) (hv : combatView e' = combatView e) :
    (ents.set k e').map combatView = ents.map combatView := by
  rw [List.map_set]
  apply set_same
  rw [List.getElem?_map, h]
  simp [hv]

theorem creditOwner_combatView (ents : List Entity) (o : Option String) (amt : ℚ) :
    (creditOwner ents o amt).map combatView = ents.map combatView := by
  unfold creditOwner
  cases o with
  | none => rfl
  | some o =>
    dsimp only
    cases hf : ents.findIdx? (fun e => e.name == o) with
    | none => rfl
    | some k =>
      dsimp only
      cases hk : ents[k]? with
      | none => rfl
      | some ow =>
        dsimp only
        exact map_combatView_set ents k ow _ hk rfl

theorem projVsActor_combatView (ents : List Entity) (p a : ℕ) :
    (projVsActor ents p a).map combatView = ents.map combatView := by
  unfold projVsActor
  cases hp : ents[p]? with
  | none => rfl
  | some proj =>
    cases ha : ents[a]? with
    | none => rfl
    | some actor =>
      by_cases h1 : (proj.owner == some actor.name) = true
      · simp [h1]
      · by_cases h2 : (teamsMatch proj.team actor.team) = true
        · simp [h1, h2]
        · by_cases h3 : (checkOverlap proj actor) = true
          · simp only [h1, h2, h3, Bool.false_eq_true, if_false, if_true]
            have e1 := map_combatView_set ents a actor
              { actor with health := actor.health - jsOr proj.damage 0 } ha rfl
            have e2 := creditOwner_combatView
              (ents.set a { actor with health := actor.health - jsOr proj.damage 0 })
              proj.owner (jsOr proj.damage 0)
            cases hp2 : (creditOwner
                (ents.set a { actor with health := actor.health - jsOr proj.damage 0 })
                proj.owner (jsOr proj.damage 0))[p]? with
            | none => simp only [hp2]; rw [e2, e1]
            | some proj2 =>
              simp only [hp2]
              rw [map_combatView_set _ p proj2 { proj2 with dead := true } hp2 rfl, e2, e1]
          · simp [h1, h2, h3]

theorem contactHit_combatView (ents : List Entity) (i j : ℕ) :
    (contactHit ents i j).map combatView = ents.map combatView := by
  unfold contactHit
  cases hi : ents[i]? with
  | none => rfl
  | some a =>
    cases hj : ents[j]? with
    | none => rfl
    | some b =>
      by_cases h1 : (teamsMatch a.team b.team) = true
      · simp [h1]
      · by_cases h2 : (checkOverlap a b) = true
        · simp only [h1, h2, Bool.false_eq_true, if_false, if_true]
          have e1 := map_combatView_set ents i a { a with health := a.health - 5 } hi rfl
          cases hj2 : (ents.set i { a with health := a.health - 5 })[j]? with
          | none => simp only [hj2]; rw [e1]
          | some b1 =>
            simp only [hj2]
            rw [map_combatView_set _ j b1 { b1 with health := b1.health - 5 } hj2 rfl, e1]
        · simp [h1, h2]

theorem foldl_combatView {β : Type} (step : List Entity → β → List Entity) (l : List β)
    (hstep : ∀ cur b, (step cur b).map combatView = cur.map combatView) :
    ∀ ents, (l.foldl step ents).map combatView = ents.map combatView := by
  induction l with
  | nil => intro ents; rfl
  | cons x xs ih =>
    intro ents
    rw [List.foldl_cons, ih (step ents x), hstep]

theorem handlePvp_combatView (ents : List Entity) :
    (handlePvp ents).map combatView = ents.map combatView := by
  simp only [handlePvp, innerPass]
  rw [foldl_combatView (fun cur ij => contactHit cur ij.1 ij.2)
    (pairsOf (actorIndices ents)) (fun cur ij => contactHit_combatView cur ij.1 ij.2)]
  exact foldl_combatView _ (projIndices ents)
    (fun cur p => foldl_combatView _ (actorIndices ents)
      (fun cur2 a => projVsActor_combatView cur2 p a) cur)
    ents

theorem handlePvp_getElem_combatView (L : List Entity) (i : ℕ) :
    ((handlePvp L)[i]?).map combatView = (L[i]?).map combatView := by
  have h := congrArg (fun l => l[i]?) (handlePvp_combatView L)
  simpa [List.getElem?_map] using h

/-! Pointwise behaviour of the physics loop. -/

theorem stepEntity_length_le (opts : Opts) (ks : String → Bool) (now dt : ℚ)
    (staticIdx : List ℕ) (cur : List Entity) (i : ℕ) :
    cur.length ≤ (stepEntity opts ks now dt staticIdx cur i).length := by
  unfold stepEntity
  cases h : cur[i]? with
  | none => simp
  | some e =>
    simp only
    cases h2 : (stepEntityCore opts ks now dt staticIdx cur i e).2 with
    | none => simp
    | some proj => simp

theorem stepEntity_getElem_ne (opts : Opts) (ks : String → Bool) (now dt : ℚ)
    (staticIdx : List ℕ) (cur : List Entity) (i j : ℕ) (hne : j ≠ i)
    (hj : j < cur.length) :
    (stepEntity opts ks now dt staticIdx cur i)[j]? = cur[j]? := by
  unfold stepEntity
  cases h : cur[i]? with
  | none => rfl
  | some e =>
    simp only
    cases h2 : (stepEntityCore opts ks now dt staticIdx cur i e).2 with
    | none => exact List.getElem?_set_ne (Ne.symm hne)
    | some proj =>
      rw [List.getElem?_append_left (by simpa using hj)]
      exact List.getElem?_set_ne (Ne.symm hne)

theorem stepEntity_getElem_self (opts : Opts) (ks : String → Bool) (now dt : ℚ)
    (staticIdx : List ℕ) (cur : List Entity) (i : ℕ) (ent0 : Entity)
    (hi : cur[i]? = some ent0) :
    (stepEntity opts ks now dt staticIdx cur i)[i]? =
      some (stepEntityCore opts ks now dt staticIdx cur i ent0).1 := by
  have hlen : i < cur.length := (List.getElem?_eq_some.mp hi).1
  unfold stepEntity
  rw [hi]
  simp only
  cases h2 : (stepEntityCore opts ks now dt staticIdx cur i ent0).2 with
  | none => exact List.getElem?_set_self hlen
  | some proj =>
    rw [List.getElem?_append_left (by simpa using hlen)]
    exact List.getElem?_set_self hlen

theorem foldl_stepEntity_notMem (opts : Opts) (ks : String → Bool) (now dt : ℚ)
    (staticIdx : List ℕ) (l : List ℕ) (i : ℕ) (hnm : i ∉ l) :
    ∀ cur : List Entity, i < cur.length →
      (l.foldl (stepEntity opts ks now dt staticIdx) cur)[i]? = cur[i]? ∧
      i < (l.foldl (stepEntity opts ks now dt staticIdx) cur).length := by
  induction l with
  | nil => intro cur h; exact ⟨rfl, h⟩
  | cons j js ih =>
    intro cur h
    have hji : i ≠ j := fun he => hnm (he ▸ List.mem_cons_self j js)
    have hstep := stepEntity_getElem_ne opts ks now dt staticIdx cur j i hji h
    have hlen : i < (stepEntity opts ks now dt staticIdx cur j).length :=
      lt_of_lt_of_le h (stepEntity_length_le opts ks now dt staticIdx cur j)
    have hrest := ih (fun hm => hnm (List.mem_cons_of_mem j hm))
      (stepEntity opts ks now dt staticIdx cur j) hlen
    rw [List.foldl_cons]
    exact ⟨hrest.1.trans hstep, hrest.2⟩

theorem foldl_stepEntity_mem (opts : Opts) (ks : String → Bool) (now dt : ℚ)
    (staticIdx : List ℕ) (l : List ℕ) (i : ℕ) (hmem : i ∈ l) (hnd : l.Nodup) :
    ∀ cur : List Entity, i < cur.length →
      ∃ cur', cur'[i]? = cur[i]? ∧
        (l.foldl (stepEntity opts ks now dt staticIdx) cur)[i]? =
          (stepEntity opts ks now dt staticIdx cur' i)[i]? := by
  induction l with
  | nil => cases hmem
  | cons j js ih =>
    intro cur h
    have hnd' := List.nodup_cons.mp hnd
    rcases List.mem_cons.mp hmem with he | hm
    · subst he
      have h2 : i < (stepEntity opts ks now dt staticIdx cur i).length :=
        lt_of_lt_of_le h (stepEntity_length_le opts ks now dt staticIdx cur i)
      have h3 := (foldl_stepEntity_notMem opts ks now dt staticIdx js i hnd'.1
        (stepEntity opts ks now dt staticIdx cur i) h2).1
      rw [List.foldl_cons]
      exact ⟨cur, rfl, h3⟩
    · have hji : i ≠ j := fun he => hnd'.1 (he ▸ hm)
      have hlen : i < (stepEntity opts ks now dt staticIdx cur j).length :=
        lt_of_lt_of_le h (stepEntity_length_le opts ks now dt staticIdx cur j)
      obtain ⟨cur', hc1, hc2⟩ := ih hm hnd'.2 (stepEntity opts ks now dt staticIdx cur j) hlen
      rw [List.foldl_cons]
      exact ⟨cur', hc1.trans (stepEntity_getElem_ne opts ks now dt staticIdx cur j i hji h), hc2⟩

theorem combatView_posX {e e' : Entity} (h : combatView e' = combatView e) :
    e'.posX = e.posX := by
  have h2 := congrArg Entity.posX h
  simpa [combatView] using h2

theorem combatView_posY {e e' : Entity} (h : combatView e' = combatView e) :
    e'.posY = e.posY := by
  have h2 := congrArg Entity.posY h
  simpa [combatView] using h2

theorem stepEntityCore_static (opts : Opts) (ks : String → Bool) (now dt : ℚ)
    (staticIdx : List ℕ) (cur : List Entity) (i : ℕ) (ent : Entity)
    (hphys : ent.physics = "static") (hvx : ent.vx = 0) (hvy : ent.vy = 0)
    (hctl : ent.controls = none) :
    (stepEntityCore opts ks now dt staticIdx cur i ent).1.posX = ent.posX ∧
    (stepEntityCore opts ks now dt staticIdx cur i ent).1.posY = ent.posY := by
  have hrfl : controlPhase ks now { ent with onGround := false } =
      ({ ent with onGround := false }, none) := by
    unfold controlPhase
    have : ({ ent with onGround := false } : Entity).controls = none := hctl
    rw [this]
  unfold stepEntityCore
  dsimp only
  rw [hrfl]
  unfold gravityPhase integratePhase collidePhase agePhase deathPhase rollbackPhase
  simp only [hphys, hvx, hvy]
  norm_num +decide
  split_ifs <;> simp

/-- C4 (corrected): a `physicsMode=static` entity with zero velocity and no
control scheme does not move during the pre-reap entity pipeline of a
simulation step (physics loop plus combat step, multiplayer on or off), in
any scene.  This is the amended claim: the frozen claim quantified over every
state reachable through the public API "including entities added with nonzero
vx or vy", but position integration `ent.pos[0] += ent.vx * dt` (part_000
lines 491-492) runs unconditionally for every entity regardless of physics
mode, so a static entity added with nonzero velocity moves every step — see
the counterexample. -/
theorem c4_static_zero_velocity_never_moves (opts : Opts) (ks : String → Bool)
    (now dt : ℚ) (mp : Bool) (ents : List Entity) (i : ℕ) (ent : Entity)
    (hi : ents[i]? = some ent) (hphys : ent.physics = "static")
    (hvx : ent.vx = 0) (hvy : ent.vy = 0) (hctl : ent.controls = none) :
    ∃ e', (stepEntities opts ks now dt mp ents)[i]? = some e' ∧
      e'.posX = ent.posX ∧ e'.posY = ent.posY := by
  have hlen : i < ents.length := (List.getElem?_eq_some.mp hi).1
  set sIdx := (List.range ents.length).filter (fun j =>
    match ents[j]? with
    | some e => e.physics == "static"
    | none => false) with hsIdx
  have hpl : physicsLoop opts ks now dt ents =
      (List.range ents.length).foldl (stepEntity opts ks now dt sIdx) ents := by
    simp only [physicsLoop, hsIdx]
  obtain ⟨cur', hc1, hc2⟩ := foldl_stepEntity_mem opts ks now dt sIdx
    (List.range ents.length) i (List.mem_range.mpr hlen) (List.nodup_range _) ents hlen
  rw [hi] at hc1
  have hself := stepEntity_getElem_self opts ks now dt sIdx cur' i ent hc1
  have hcore := stepEntityCore_static opts ks now dt sIdx cur' i ent hphys hvx hvy hctl
  have hphysL : (physicsLoop opts ks now dt ents)[i]? =
      some (stepEntityCore opts ks now dt sIdx cur' i ent).1 := by
    rw [hpl, hc2, hself]
  cases mp with
  | false =>
    refine ⟨_, ?_, hcore.1, hcore.2⟩
    simp only [stepEntities, Bool.false_eq_true, if_false]
    exact hphysL
  | true =>
    have hcv := handlePvp_getElem_combatView (physicsLoop opts ks now dt ents) i
    rw [hphysL] at hcv
    cases hres : (handlePvp (physicsLoop opts ks now dt ents))[i]? with
    | none => rw [hres] at hcv; cases hcv
    | some e' =>
      rw [hres] at hcv
      simp only [Option.map_some', Option.some.injEq] at hcv
      refine ⟨e', ?_, ?_, ?_⟩
      · simp only [stepEntities, if_true]
        exact hres
      · rw [combatView_posX hcv, hcore.1]
      · rw [combatView_posY hcv, hcore.2]

/-- Witness for C4: a static entity at x = 3 with the default zero velocity
is still at (3, 0) after the full entity pipeline of a step. -/
theorem c4_static_zero_velocity_never_moves_witness :
    ∃ e', (stepEntities {} (fun _ => false) 0 1 true
        [{ physics := "static", posX := 3 : Entity }])[0]? = some e' ∧
      e'.posX = 3 ∧ e'.posY = 0 := by
  have h := c4_static_zero_velocity_never_moves {} (fun _ => false) 0 1 true
    [{ physics := "static", posX := 3 : Entity }] 0
    { physics := "static", posX := 3 : Entity } rfl rfl rfl rfl rfl
  exact h

set_option maxHeartbeats 1000000 in
/-- Counterexample for C4 as frozen: the claim covers "every scene state
reachable through the public API (including entities added with nonzero vx or
vy)", but a static entity added through `addEntity` with `vx = 5` is at
x = 5 after one step with `dt = 1` — static entities do move when given a
velocity, because integration is unconditional. -/
theorem c4_static_with_velocity_moves_counterexample :
    ((updateStep {} (fun _ => false) 0 1
        (addEntity {} { physics := "static", vx := 5 : Entity })).entities.map
      Entity.posX) = [5] := by
  norm_num +decide [updateStep, stepEntities, physicsLoop, stepEntity, stepEntityCore,
    controlPhase, controlVel, collideStatics, gravityPhase, integratePhase,
    collidePhase, agePhase, deathPhase, rollbackPhase, tryAttack, keyHeld, strTruthy,
    handlePvp, innerPass, actorIndices, projIndices, pairsOf, contactHit, projVsActor,
    creditOwner, teamsMatch, checkOverlap, resolveCollision, overlapX, overlapY,
    fireEvents, jsOr, addEntity, List.range_succ, List.filter_cons]

/-! Aging-related preservation lemmas: the control, gravity and collision
phases never touch `life`, `kind`, `dead` or `health`. -/

theorem resolveCollision_life (d s : Entity) : (resolveCollision d s).life = d.life := by
  simp only [resolveCollision]
  split_ifs <;> rfl

theorem resolveCollision_kind (d s : Entity) : (resolveCollision d s).kind = d.kind := by
  simp only [resolveCollision]
  split_ifs <;> rfl

theorem resolveCollision_dead (d s : Entity) : (resolveCollision d s).dead = d.dead := by
  simp only [resolveCollision]
  split_ifs <;> rfl

theorem resolveCollision_health (d s : Entity) : (resolveCollision d s).health = d.health := by
  simp only [resolveCollision]
  split_ifs <;> rfl

theorem collideStatics_cons (cur : List Entity) (i j : ℕ) (js : List ℕ) (e : Entity) :
    collideStatics cur i (j :: js) e =
      collideStatics cur i js (if j == i then e else
        match cur[j]? with
        | some obstacle => resolveCollision e obstacle
        | none => e) := rfl

theorem collideStatics_step_life (cur : List Entity) (i j : ℕ) (e : Entity) :
    (if j == i then e else
      match cur[j]? with
      | some obstacle => resolveCollision e obstacle
      | none => e).life = e.life := by
  by_cases hj : (j == i) = true
  · simp [hj]
  · simp only [hj, Bool.false_eq_true, if_false]
    cases cur[j]? with
    | none => rfl
    | some obstacle => exact resolveCollision_life e obstacle

theorem collideStatics_step_kind (cur : List Entity) (i j : ℕ) (e : Entity) :
    (if j == i then e else
      match cur[j]? with
      | some obstacle => resolveCollision e obstacle
      | none => e).kind = e.kind := by
  by_cases hj : (j == i) = true
  · simp [hj]
  · simp only [hj, Bool.false_eq_true, if_false]
    cases cur[j]? with
    | none => rfl
    | some obstacle => exact resolveCollision_kind e obstacle

theorem collideStatics_step_dead (cur : List Entity) (i j : ℕ) (e : Entity) :
    (if j == i then e else
      match cur[j]? with
      | some obstacle => resolveCollision e obstacle
      | none => e).dead = e.dead := by
  by_cases hj : (j == i) = true
  · simp [hj]
  · simp only [hj, Bool.false_eq_true, if_false]
    cases cur[j]? with
    | none => rfl
    | some obstacle => exact resolveCollision_dead e obstacle

theorem collideStatics_step_health (cur : List Entity) (i j : ℕ) (e : Entity) :
    (if j == i then e else
      match cur[j]? with
      | some obstacle => resolveCollision e obstacle
      | none => e).health = e.health := by
  by_cases hj : (j == i) = true
  · simp [hj]
  · simp only [hj, Bool.false_eq_true, if_false]
    cases cur[j]? with
    | none => rfl
    | some obstacle => exact resolveCollision_health e obstacle

theorem collideStatics_life (cur : List Entity) (i : ℕ) (staticIdx : List ℕ) :
    ∀ e : Entity, (collideStatics cur i staticIdx e).life = e.life := by
  induction staticIdx with
  | nil => intro e; rfl
  | cons j js ih =>
    intro e
    rw [collideStatics_cons, ih, collideStatics_step_life]

theorem collideStatics_kind (cur : List Entity) (i : ℕ) (staticIdx : List ℕ) :
    ∀ e : Entity, (collideStatics cur i staticIdx e).kind = e.kind := by
  induction staticIdx with
  | nil => intro e; rfl
  | cons j js ih =>
    intro e
    rw [collideStatics_cons, ih, collideStatics_step_kind]

theorem collideStatics_dead (cur : List Entity) (i : ℕ) (staticIdx : List ℕ) :
    ∀ e : Entity, (collideStatics cur i staticIdx e).dead = e.dead := by
  induction staticIdx with
  | nil => intro e; rfl
  | cons j js ih =>
    intro e
    rw [collideStatics_cons, ih, collideStatics_step_dead]

theorem collideStatics_health (cur : List Entity) (i : ℕ) (staticIdx : List ℕ) :
    ∀ e : Entity, (collideStatics cur i staticIdx e).health = e.health := by
  induction staticIdx with
  | nil => intro e; rfl
  | cons j js ih =>
    intro e
    rw [collideStatics_cons, ih, collideStatics_step_health]

theorem gravityPhase_life (opts : Opts) (dt : ℚ) (e : Entity) :
    (gravityPhase opts dt e).life = e.life := by
  unfold gravityPhase; split_ifs <;> rfl

theorem gravityPhase_kind (opts : Opts) (dt : ℚ) (e : Entity) :
    (gravityPhase opts dt e).kind = e.kind := by
  unfold gravityPhase; split_ifs <;> rfl

theorem gravityPhase_dead (opts : Opts) (dt : ℚ) (e : Entity) :
    (gravityPhase opts dt e).dead = e.dead := by
  unfold gravityPhase; split_ifs <;> rfl

theorem gravityPhase_health (opts : Opts) (dt : ℚ) (e : Entity) :
    (gravityPhase opts dt e).health = e.health := by
  unfold gravityPhase; split_ifs <;> rfl

theorem integratePhase_life (dt : ℚ) (e : Entity) :
    (integratePhase dt e).life = e.life := rfl

theorem integratePhase_kind (dt : ℚ) (e : Entity) :
    (integratePhase dt e).kind = e.kind := rfl

theorem integratePhase_dead (dt : ℚ) (e : Entity) :
    (integratePhase dt e).dead = e.dead := rfl

theorem integratePhase_health (dt : ℚ) (e : Entity) :
    (integratePhase dt e).health = e.health := rfl

theorem collidePhase_life (cur : List Entity) (i : ℕ) (staticIdx : List ℕ) (e : Entity) :
    (collidePhase cur i staticIdx e).life = e.life := by
  unfold collidePhase
  split_ifs
  · exact collideStatics_life cur i staticIdx e
  · rfl

theorem collidePhase_kind (cur : List Entity) (i : ℕ) (staticIdx : List ℕ) (e : Entity) :
    (collidePhase cur i staticIdx e).kind = e.kind := by
  unfold collidePhase
  split_ifs
  · exact collideStatics_kind cur i staticIdx e
  · rfl

theorem collidePhase_dead (cur : List Entity) (i : ℕ) (staticIdx : List ℕ) (e : Entity) :
    (collidePhase cur i staticIdx e).dead = e.dead := by
  unfold collidePhase
  split_ifs
  · exact collideStatics_dead cur i staticIdx e
  · rfl

theorem collidePhase_health (cur : List Entity) (i : ℕ) (staticIdx : List ℕ) (e : Entity) :
    (collidePhase cur i staticIdx e).health = e.health := by
  unfold collidePhase
  split_ifs
  · exact collideStatics_health cur i staticIdx e
  · rfl

theorem tryAttack_fst (ent : Entity) (now : ℚ) (r : Entity × Entity)
    (h : tryAttack ent now = some r) : r.1 = { ent with lastAttack := now } := by
  cases hw : ent.weapon with
  | none => simp only [tryAttack, hw] at h; exact Option.noConfusion h
  | some w =>
    simp only [tryAttack, hw] at h
    split at h
    · exact Option.noConfusion h
    · simp only [Option.some.injEq] at h
      rw [← h]

theorem controlVel_life (ks : String → Bool) (c : ControlMap) (e : Entity) :
    (controlVel ks c e).life = e.life := by
  unfold controlVel; dsimp only; split_ifs <;> rfl

theorem controlVel_kind (ks : String → Bool) (c : ControlMap) (e : Entity) :
    (controlVel ks c e).kind = e.kind := by
  unfold controlVel; dsimp only; split_ifs <;> rfl

theorem controlVel_dead (ks : String → Bool) (c : ControlMap) (e : Entity) :
    (controlVel ks c e).dead = e.dead := by
  unfold controlVel; dsimp only; split_ifs <;> rfl

theorem controlVel_health (ks : String → Bool) (c : ControlMap) (e : Entity) :
    (controlVel ks c e).health = e.health := by
  unfold controlVel; dsimp only; split_ifs <;> rfl

theorem controlVel_physics (ks : String → Bool) (c : ControlMap) (e : Entity) :
    (controlVel ks c e).physics = e.physics := by
  unfold controlVel; dsimp only; split_ifs <;> rfl

theorem controlPhase_fst_life (ks : String → Bool) (now : ℚ) (e : Entity) :
    (controlPhase ks now e).1.life = e.life := by
  unfold controlPhase
  cases hc : e.controls with
  | none => rfl
  | some c =>
    dsimp only
    by_cases hatk : (keyHeld ks c.attack) = true
    · rw [if_pos hatk]
      cases htr : tryAttack (controlVel ks c e) now with
      | none => exact controlVel_life ks c e
      | some r =>
        dsimp only
        rw [tryAttack_fst _ _ _ htr]
        exact controlVel_life ks c e
    · rw [if_neg hatk]
      exact controlVel_life ks c e

theorem controlPhase_fst_kind (ks : String → Bool) (now : ℚ) (e : Entity) :
    (controlPhase ks now e).1.kind = e.kind := by
  unfold controlPhase
  cases hc : e.controls with
  | none => rfl
  | some c =>
    dsimp only
    by_cases hatk : (keyHeld ks c.attack) = true
    · rw [if_pos hatk]
      cases htr : tryAttack (controlVel ks c e) now with
      | none => exact controlVel_kind ks c e
      | some r =>
        dsimp only
        rw [tryAttack_fst _ _ _ htr]
        exact controlVel_kind ks c e
    · rw [if_neg hatk]
      exact controlVel_kind ks c e

theorem controlPhase_fst_dead (ks : String → Bool) (now : ℚ) (e : Entity) :
    (controlPhase ks now e).1.dead = e.dead := by
  unfold controlPhase
  cases hc : e.controls with
  | none => rfl
  | some c =>
    dsimp only
    by_cases hatk : (keyHeld ks c.attack) = true
    · rw [if_pos hatk]
      cases htr : tryAttack (controlVel ks c e) now with
      | none => exact controlVel_dead ks c e
      | some r =>
        dsimp only
        rw [tryAttack_fst _ _ _ htr]
        exact controlVel_dead ks c e
    · rw [if_neg hatk]
      exact controlVel_dead ks c e

theorem controlPhase_fst_health (ks : String → Bool) (now : ℚ) (e : Entity) :
    (controlPhase ks now e).1.health = e.health := by
  unfold controlPhase
  cases hc : e.controls with
  | none => rfl
  | some c =>
    dsimp only
    by_cases hatk : (keyHeld ks c.attack) = true
    · rw [if_pos hatk]
      cases htr : tryAttack (controlVel ks c e) now with
      | none => exact controlVel_health ks c e
      | some r =>
        dsimp only
        rw [tryAttack_fst _ _ _ htr]
        exact controlVel_health ks c e
    · rw [if_neg hatk]
      exact controlVel_health ks c e

set_option maxHeartbeats 2000000 in
theorem stepEntityCore_projectile (opts : Opts) (ks : String → Bool) (now dt : ℚ)
    (staticIdx : List ℕ) (cur : List Entity) (i : ℕ) (ent : Entity)
    (hkind : ent.kind = "projectile") (hdead : ent.dead = false)
    (hhealth : 0 < ent.health) :
    (stepEntityCore opts ks now dt staticIdx cur i ent).1.life = jsOr ent.life 0 - dt ∧
    (stepEntityCore opts ks now dt staticIdx cur i ent).1.dead =
      decide (jsOr ent.life 0 - dt ≤ 0) ∧
    (stepEntityCore opts ks now dt staticIdx cur i ent).1.kind = "projectile" := by
  unfold stepEntityCore
  dsimp only
  generalize hE : (controlPhase ks now { ent with onGround := false }).1 = E2
  have hl : E2.life = ent.life := by rw [← hE]; exact controlPhase_fst_life ks now _
  have hk : E2.kind = "projectile" := by
    rw [← hE]; exact (controlPhase_fst_kind ks now _).trans hkind
  have hd : E2.dead = false := by
    rw [← hE]; exact (controlPhase_fst_dead ks now _).trans hdead
  have hh : E2.health = ent.health := by rw [← hE]; exact controlPhase_fst_health ks now _
  set e5 : Entity :=
    collidePhase cur i staticIdx (integratePhase dt (gravityPhase opts dt E2)) with he5
  have h5l : e5.life = ent.life := by
    rw [he5, collidePhase_life, integratePhase_life, gravityPhase_life, hl]
  have h5k : e5.kind = "projectile" := by
    rw [he5, collidePhase_kind, integratePhase_kind, gravityPhase_kind, hk]
  have h5d : e5.dead = false := by
    rw [he5, collidePhase_dead, integratePhase_dead, gravityPhase_dead, hd]
  have h5h : e5.health = ent.health := by
    rw [he5, collidePhase_health, integratePhase_health, gravityPhase_health, hh]
  have h6 : agePhase dt e5 =
      { e5 with
        life := jsOr ent.life 0 - dt
        dead := decide (jsOr ent.life 0 - dt ≤ 0) } := by
    unfold agePhase
    rw [if_pos (show (e5.kind == "projectile") = true by rw [h5k]; rfl)]
    dsimp only
    rw [h5l, h5d]
    by_cases hlife : jsOr ent.life 0 - dt ≤ 0
    · rw [if_pos hlife, decide_eq_true hlife]
    · rw [if_neg hlife, decide_eq_false hlife]
  have h7 : deathPhase (agePhase dt e5) = agePhase dt e5 := by
    unfold deathPhase
    rw [if_neg]
    rw [h6]
    simp only [Bool.and_eq_true, Bool.not_eq_true', decide_eq_true_eq]
    intro hand
    exact absurd (by rw [h5h] at hand; exact hand.1) (not_le.mpr hhealth)
  have h8 : ∀ px py e, (rollbackPhase px py e).life = e.life ∧
      (rollbackPhase px py e).dead = e.dead ∧ (rollbackPhase px py e).kind = e.kind := by
    intro px py e
    unfold rollbackPhase
    split_ifs <;> exact ⟨rfl, rfl, rfl⟩
  obtain ⟨r1, r2, r3⟩ := h8 (gravityPhase opts dt E2).posX (gravityPhase opts dt E2).posY
    (deathPhase (agePhase dt e5))
  rw [r1, r2, r3, h7, h6]
  refine ⟨rfl, rfl, h5k⟩

/-- C9 (corrected): a projectile present at the start of a step (alive, with
positive health) has its `lifeRemaining` decreased by exactly `dt` during the
physics loop, whatever its controls, physics mode or collisions, and comes
out marked dead exactly when the decreased life is `≤ 0` (first conjunct);
with the combat step disabled, the entities surviving the full step are
exactly the non-dead outputs of the physics loop, so the projectile is
removed at the end of the first step on which its life reaches `≤ 0` and not
earlier (second conjunct).  This is the amended claim: combat can remove a
projectile earlier — a projectile that hits an actor is marked dead and
reaped that same step with its life still positive (see the
counterexample). -/
theorem c9_projectile_aging (opts : Opts) (ks : String → Bool) (now dt : ℚ)
    (scene : Scene) (i : ℕ) (ent : Entity)
    (hi : scene.entities[i]? = some ent) (hkind : ent.kind = "projectile")
    (hdead : ent.dead = false) (hhealth : 0 < ent.health) :
    (∃ e', (physicsLoop opts ks now dt scene.entities)[i]? = some e' ∧
      e'.life = jsOr ent.life 0 - dt ∧
      e'.dead = decide (jsOr ent.life 0 - dt ≤ 0) ∧ e'.kind = "projectile") ∧
    (scene.multiplayer = false →
      (updateStep opts ks now dt scene).entities =
        (physicsLoop opts ks now dt scene.entities).filter (fun e => !e.dead)) := by
  constructor
  · have hlen : i < scene.entities.length := (List.getElem?_eq_some.mp hi).1
    set sIdx := (List.range scene.entities.length).filter (fun j =>
      match scene.entities[j]? with
      | some e => e.physics == "static"
      | none => false) with hsIdx
    have hpl : physicsLoop opts ks now dt scene.entities =
        (List.range scene.entities.length).foldl (stepEntity opts ks now dt sIdx)
          scene.entities := by
      simp only [physicsLoop, hsIdx]
    obtain ⟨cur', hc1, hc2⟩ := foldl_stepEntity_mem opts ks now dt sIdx
      (List.range scene.entities.length) i (List.mem_range.mpr hlen)
      (List.nodup_range _) scene.entities hlen
    rw [hi] at hc1
    have hself := stepEntity_getElem_self opts ks now dt sIdx cur' i ent hc1
    obtain ⟨hl, hd, hk⟩ := stepEntityCore_projectile opts ks now dt sIdx cur' i ent
      hkind hdead hhealth
    exact ⟨_, by rw [hpl, hc2, hself], hl, hd, hk⟩
  · intro hmp
    simp only [updateStep, stepEntities, hmp, Bool.false_and, Bool.false_eq_true, if_false]

/-- Witness for C9: a fresh projectile with 3 s of life, alone in a
non-multiplayer scene, has life 2 and is not dead after a 1 s step. -/
theorem c9_projectile_aging_witness :
    ∃ e', (physicsLoop {} (fun _ => false) 0 1
        [{ kind := "projectile", life := 3 : Entity }])[0]? = some e' ∧
      e'.life = 2 ∧ e'.dead = false ∧ e'.kind = "projectile" := by
  obtain ⟨⟨e', he, hl, hd, hk⟩, -⟩ := c9_projectile_aging {} (fun _ => false) 0 1
    { entities := [{ kind := "projectile", life := 3 : Entity }], multiplayer := false }
    0 { kind := "projectile", life := 3 : Entity } rfl rfl rfl (by norm_num)
  refine ⟨e', he, ?_, ?_, hk⟩
  · rw [hl]; norm_num [jsOr]
  · rw [hd]; norm_num [jsOr]

set_option maxHeartbeats 1000000 in
/-- Counterexample for C9 as frozen: a projectile that hits an actor is
removed from the store on that very step although its life is still 2 > 0 —
after the step only the actor remains, while the physics loop alone would
have left the projectile with life 2 and not dead. -/
theorem c9_hit_removes_early_counterexample :
    ((updateStep {} (fun _ => false) 0 1
        { entities := [{ name := "P", kind := "projectile", owner := some "O", damage := 10, life := 3 : Entity },
          { name := "B", health := 50 : Entity }] }).entities.map Entity.name = ["B"]) ∧
    ((physicsLoop {} (fun _ => false) 0 1
        [{ name := "P", kind := "projectile", owner := some "O", damage := 10, life := 3 : Entity },
          { name := "B", health := 50 : Entity }]).map
      (fun e => (e.life, e.dead)) = [(2, false), (0, false)]) := by
  constructor <;>
    norm_num +decide [updateStep, stepEntities, physicsLoop, stepEntity, stepEntityCore,
      controlPhase, controlVel, collideStatics, gravityPhase, integratePhase,
    collidePhase, agePhase, deathPhase, rollbackPhase, tryAttack, keyHeld, strTruthy,
      handlePvp, innerPass, actorIndices, projIndices, pairsOf, contactHit, projVsActor,
      creditOwner, teamsMatch, checkOverlap, resolveCollision, overlapX, overlapY,
      fireEvents, jsOr, List.range_succ, List.filter_cons, List.findIdx?_cons]

/-! Congruence machinery for the projectile pass: the pass only writes
health, score and dead, so every guard (owner, team, overlap, owner lookup)
is stable while it runs. -/

theorem combatView_name {e e' : Entity} (h : combatView e' = combatView e) :
    e'.name = e.name := by
  have h2 := congrArg Entity.name h
  simpa [combatView] using h2

theorem combatView_team {e e' : Entity} (h : combatView e' = combatView e) :
    e'.team = e.team := by
  have h2 := congrArg Entity.team h
  simpa [combatView] using h2

theorem combatView_owner {e e' : Entity} (h : combatView e' = combatView e) :
    e'.owner = e.owner := by
  have h2 := congrArg Entity.owner h
  simpa [combatView] using h2

theorem combatView_kind {e e' : Entity} (h : combatView e' = combatView e) :
    e'.kind = e.kind := by
  have h2 := congrArg Entity.kind h
  simpa [combatView] using h2

theorem combatView_damage {e e' : Entity} (h : combatView e' = combatView e) :
    e'.damage = e.damage := by
  have h2 := congrArg Entity.damage h
  simpa [combatView] using h2

theorem combatView_sizeW {e e' : Entity} (h : combatView e' = combatView e) :
    e'.sizeW = e.sizeW := by
  have h2 := congrArg Entity.sizeW h
  simpa [combatView] using h2

theorem combatView_sizeH {e e' : Entity} (h : combatView e' = combatView e) :
    e'.sizeH = e.sizeH := by
  have h2 := congrArg Entity.sizeH h
  simpa [combatView] using h2

theorem map_combatView_getElem {l l' : List Entity}
    (h : l'.map combatView = l.map combatView) (j : ℕ) :
    (l'[j]?).map combatView = (l[j]?).map combatView := by
  have h2 := congrArg (fun t => t[j]?) h
  simpa [List.getElem?_map] using h2

theorem checkOverlap_congr {a a' b b' : Entity} (ha : combatView a' = combatView a)
    (hb : combatView b' = combatView b) : checkOverlap a' b' = checkOverlap a b := by
  unfold checkOverlap
  rw [combatView_posX ha, combatView_posY ha, combatView_sizeW ha, combatView_sizeH ha,
    combatView_posX hb, combatView_posY hb, combatView_sizeW hb, combatView_sizeH hb]

theorem projHitsB_congr {ents ents' : List Entity}
    (h : ents'.map combatView = ents.map combatView) (p a : ℕ) :
    projHitsB ents' p a = projHitsB ents p a := by
  unfold projHitsB
  have hp := map_combatView_getElem h p
  have ha := map_combatView_getElem h a
  cases hpe : ents[p]? with
  | none =>
    rw [hpe] at hp
    cases hpe' : ents'[p]? with
    | none => rfl
    | some z => rw [hpe'] at hp; cases hp
  | some proj =>
    rw [hpe] at hp
    cases hpe' : ents'[p]? with
    | none => rw [hpe'] at hp; cases hp
    | some proj' =>
      rw [hpe'] at hp
      simp only [Option.map_some', Option.some.injEq] at hp
      cases hae : ents[a]? with
      | none =>
        rw [hae] at ha
        cases hae' : ents'[a]? with
        | none => rfl
        | some z => rw [hae'] at ha; cases ha
      | some actor =>
        rw [hae] at ha
        cases hae' : ents'[a]? with
        | none => rw [hae'] at ha; cases ha
        | some actor' =>
          rw [hae'] at ha
          simp only [Option.map_some', Option.some.injEq] at ha
          dsimp only
          rw [combatView_owner hp, combatView_name ha, combatView_team hp,
            combatView_team ha, checkOverlap_congr hp ha]

theorem findIdx?_spec {α : Type} (p : α → Bool) (l : List α) :
    ∀ i k, List.findIdx? p l i = some k → i ≤ k ∧ ∃ x, l[k - i]? = some x ∧ p x = true := by
  induction l with
  | nil => intro i k h; simp [List.findIdx?] at h
  | cons y ys ih =>
    intro i k h
    rw [List.findIdx?_cons] at h
    by_cases hp : p y = true
    · rw [if_pos hp] at h
      cases h
      exact ⟨le_rfl, y, by simp, hp⟩
    · rw [if_neg hp] at h
      obtain ⟨hik, x, hx, hpx⟩ := ih (i + 1) k h
      refine ⟨by omega, x, ?_, hpx⟩
      have hki : k - i = (k - (i + 1)) + 1 := by omega
      rw [hki]
      simpa using hx

theorem findIdx?_name_spec {l : List Entity} {o : String} {k : ℕ}
    (h : l.findIdx? (fun e => e.name == o) = some k) :
    ∃ x, l[k]? = some x ∧ x.name = o := by
  obtain ⟨-, x, hx, hpx⟩ := findIdx?_spec (fun e => e.name == o) l 0 k h
  rw [Nat.sub_zero] at hx
  exact ⟨x, hx, by simpa using hpx⟩

theorem findIdx?_congr_names (o : String) : ∀ (l l' : List Entity) (i : ℕ),
    l'.map combatView = l.map combatView →
    List.findIdx? (fun e => e.name == o) l' i = List.findIdx? (fun e => e.name == o) l i := by
  intro l
  induction l with
  | nil => intro l' i h; cases l' <;> simp_all
  | cons x xs ih =>
    intro l' i h
    cases l' with
    | nil => simp at h
    | cons y ys =>
      simp only [List.map_cons, List.cons.injEq] at h
      rw [List.findIdx?_cons, List.findIdx?_cons, combatView_name h.1, ih ys (i + 1) h.2]

theorem creditOwner_health (ents : List Entity) (o : Option String) (amt : ℚ) (j : ℕ) :
    ((creditOwner ents o amt)[j]?).map Entity.health = (ents[j]?).map Entity.health := by
  unfold creditOwner
  cases o with
  | none => rfl
  | some o =>
    dsimp only
    cases hf : ents.findIdx? (fun e => e.name == o) with
    | none => rfl
    | some k =>
      dsimp only
      cases hk : ents[k]? with
      | none => rfl
      | some ow =>
        dsimp only
        by_cases hj : k = j
        · subst hj
          rw [List.getElem?_set_self (List.getElem?_eq_some.mp hk).1, hk]
          rfl
        · rw [List.getElem?_set_ne hj]

theorem creditOwner_dead (ents : List Entity) (o : Option String) (amt : ℚ) (j : ℕ) :
    ((creditOwner ents o amt)[j]?).map Entity.dead = (ents[j]?).map Entity.dead := by
  unfold creditOwner
  cases o with
  | none => rfl
  | some o =>
    dsimp only
    cases hf : ents.findIdx? (fun e => e.name == o) with
    | none => rfl
    | some k =>
      dsimp only
      cases hk : ents[k]? with
      | none => rfl
      | some ow =>
        dsimp only
        by_cases hj : k = j
        · subst hj
          rw [List.getElem?_set_self (List.getElem?_eq_some.mp hk).1, hk]
          rfl
        · rw [List.getElem?_set_ne hj]

theorem projHitsB_of_entries {ents : List Entity} {p a : ℕ} {proj actor : Entity}
    (hpe : ents[p]? = some proj) (hae : ents[a]? = some actor) :
    projHitsB ents p a =
      (!(proj.owner == some actor.name) && !(teamsMatch proj.team actor.team) &&
        checkOverlap proj actor) := by
  unfold projHitsB
  rw [hpe, hae]

theorem projHitsB_decomp {ents : List Entity} {p a : ℕ} {proj actor : Entity}
    (hpe : ents[p]? = some proj) (hae : ents[a]? = some actor)
    (hhit : projHitsB ents p a = true) :
    (proj.owner == some actor.name) = false ∧
    (teamsMatch proj.team actor.team) = false ∧ checkOverlap proj actor = true := by
  rw [projHitsB_of_entries hpe hae] at hhit
  simp only [Bool.and_eq_true, Bool.not_eq_true'] at hhit
  exact ⟨hhit.1.1, hhit.1.2, hhit.2⟩

theorem projVsActor_eq_of_miss {ents : List Entity} {p a : ℕ} {proj actor : Entity}
    (hpe : ents[p]? = some proj) (hae : ents[a]? = some actor)
    (hmiss : projHitsB ents p a = false) : projVsActor ents p a = ents := by
  rw [projHitsB_of_entries hpe hae] at hmiss
  unfold projVsActor
  rw [hpe, hae]
  dsimp only
  by_cases h1 : (proj.owner == some actor.name) = true
  · simp [h1]
  · by_cases h2 : (teamsMatch proj.team actor.team) = true
    · simp [h1, h2]
    · have h3 : checkOverlap proj actor = false := by
        rw [Bool.not_eq_true] at h1 h2
        simpa [h1, h2] using hmiss
      simp [h1, h2, h3]

theorem projVsActor_of_hit {ents : List Entity} {p a : ℕ} {proj actor : Entity}
    (hpe : ents[p]? = some proj) (hae : ents[a]? = some actor)
    (hhit : projHitsB ents p a = true) :
    projVsActor ents p a =
      (match (creditOwner (ents.set a { actor with health := actor.health - jsOr proj.damage 0 }) proj.owner (jsOr proj.damage 0))[p]? with
       | some proj2 =>
          (creditOwner (ents.set a { actor with health := actor.health - jsOr proj.damage 0 }) proj.owner (jsOr proj.damage 0)).set p { proj2 with dead := true }
       | none =>
          creditOwner (ents.set a { actor with health := actor.health - jsOr proj.damage 0 }) proj.owner (jsOr proj.damage 0)) := by
  obtain ⟨h1, h2, h3⟩ := projHitsB_decomp hpe hae hhit
  unfold projVsActor
  rw [hpe, hae]
  dsimp only
  simp only [h1, h2, h3, Bool.false_eq_true, if_false, if_true]

theorem projVsActor_health_ne (ents : List Entity) (p a j : ℕ) (hj : j ≠ a) :
    ((projVsActor ents p a)[j]?).map Entity.health = (ents[j]?).map Entity.health := by
  cases hpe : ents[p]? with
  | none => simp [projVsActor, hpe]
  | some proj =>
    cases hae : ents[a]? with
    | none => simp [projVsActor, hpe, hae]
    | some actor =>
      by_cases hhit : projHitsB ents p a = true
      · rw [projVsActor_of_hit hpe hae hhit]
        cases hp2 : (creditOwner (ents.set a { actor with health := actor.health - jsOr proj.damage 0 }) proj.owner (jsOr proj.damage 0))[p]? with
        | none =>
          dsimp only
          rw [creditOwner_health, List.getElem?_set_ne (Ne.symm hj)]
        | some proj2 =>
          dsimp only
          by_cases hjp : j = p
          · subst hjp
            rw [List.getElem?_set_self (List.getElem?_eq_some.mp hp2).1]
            have hpa : j ≠ a := hj
            have hh2 : (some proj2).map Entity.health = (ents[j]?).map Entity.health := by
              rw [← hp2, creditOwner_health, List.getElem?_set_ne (Ne.symm hj)]
            simpa using hh2
          · rw [List.getElem?_set_ne (fun he => hjp he.symm),
              creditOwner_health, List.getElem?_set_ne (Ne.symm hj)]
      · rw [Bool.not_eq_true] at hhit
        rw [projVsActor_eq_of_miss hpe hae hhit]

theorem projVsActor_health_eq (ents : List Entity) (p a : ℕ) (proj actor : Entity)
    (hpe : ents[p]? = some proj) (hae : ents[a]? = some actor) (hap : a ≠ p) :
    ((projVsActor ents p a)[a]?).map Entity.health =
      some (actor.health - if projHitsB ents p a then jsOr proj.damage 0 else 0) := by
  by_cases hhit : projHitsB ents p a = true
  · rw [projVsActor_of_hit hpe hae hhit, hhit, if_pos rfl]
    have hlen : a < ents.length := (List.getElem?_eq_some.mp hae).1
    cases hp2 : (creditOwner (ents.set a { actor with health := actor.health - jsOr proj.damage 0 }) proj.owner (jsOr proj.damage 0))[p]? with
    | none =>
      dsimp only
      rw [creditOwner_health, List.getElem?_set_self hlen]
      rfl
    | some proj2 =>
      dsimp only
      rw [List.getElem?_set_ne (Ne.symm hap), creditOwner_health,
        List.getElem?_set_self hlen]
      rfl
  · rw [Bool.not_eq_true] at hhit
    rw [projVsActor_eq_of_miss hpe hae hhit, hhit, hae]
    simp

theorem projVsActor_dead_ne (ents : List Entity) (p a j : ℕ) (hj : j ≠ p) :
    ((projVsActor ents p a)[j]?).map Entity.dead = (ents[j]?).map Entity.dead := by
  cases hpe : ents[p]? with
  | none => simp [projVsActor, hpe]
  | some proj =>
    cases hae : ents[a]? with
    | none => simp [projVsActor, hpe, hae]
    | some actor =>
      by_cases hhit : projHitsB ents p a = true
      · rw [projVsActor_of_hit hpe hae hhit]
        have hsetdead : ∀ j2 : ℕ,
            (((ents.set a { actor with health := actor.health - jsOr proj.damage 0 })[j2]?).map
              Entity.dead) = (ents[j2]?).map Entity.dead := by
          intro j2
          by_cases hja : a = j2
          · subst hja
            rw [List.getElem?_set_self (List.getElem?_eq_some.mp hae).1, hae]
            rfl
          · rw [List.getElem?_set_ne hja]
        cases hp2 : (creditOwner (ents.set a { actor with health := actor.health - jsOr proj.damage 0 }) proj.owner (jsOr proj.damage 0))[p]? with
        | none =>
          dsimp only
          rw [creditOwner_dead, hsetdead]
        | some proj2 =>
          dsimp only
          rw [List.getElem?_set_ne (fun he => hj he.symm), creditOwner_dead, hsetdead]
      · rw [Bool.not_eq_true] at hhit
        rw [projVsActor_eq_of_miss hpe hae hhit]

theorem projVsActor_dead_p (ents : List Entity) (p a : ℕ) (proj : Entity)
    (hpe : ents[p]? = some proj) (_hap : a ≠ p) :
    ((projVsActor ents p a)[p]?).map Entity.dead =
      some (proj.dead || projHitsB ents p a) := by
  cases hae : ents[a]? with
  | none =>
    have hmiss : projHitsB ents p a = false := by
      unfold projHitsB
      rw [hpe, hae]
    rw [hmiss, Bool.or_false]
    simp [projVsActor, hpe, hae]
  | some actor =>
    by_cases hhit : projHitsB ents p a = true
    · rw [projVsActor_of_hit hpe hae hhit, hhit, Bool.or_true]
      have hplen : p < ents.length := (List.getElem?_eq_some.mp hpe).1
      cases hp2 : (creditOwner (ents.set a { actor with health := actor.health - jsOr proj.damage 0 }) proj.owner (jsOr proj.damage 0))[p]? with
      | none =>
        exfalso
        have h2 := congrArg List.length (creditOwner_combatView
          (ents.set a { actor with health := actor.health - jsOr proj.damage 0 })
          proj.owner (jsOr proj.damage 0))
        simp only [List.length_map, List.length_set] at h2
        have hnone := List.getElem?_eq_none_iff.mp hp2
        omega
      | some proj2 =>
        dsimp only
        rw [List.getElem?_set_self (List.getElem?_eq_some.mp hp2).1]
        rfl
    · rw [Bool.not_eq_true] at hhit
      rw [projVsActor_eq_of_miss hpe hae hhit, hhit, Bool.or_false, hpe]
      rfl

theorem any_congr_mem {α : Type} {p q : α → Bool} : ∀ (l : List α),
    (∀ a ∈ l, p a = q a) → l.any p = l.any q := by
  intro l
  induction l with
  | nil => intro _; rfl
  | cons x xs ih =>
    intro h
    simp only [List.any_cons, h x (List.mem_cons_self x xs),
      ih fun a ha => h a (List.mem_cons_of_mem x ha)]

theorem countP_congr_mem {α : Type} {p q : α → Bool} : ∀ (l : List α),
    (∀ a ∈ l, p a = q a) → l.countP p = l.countP q := by
  intro l
  induction l with
  | nil => intro _; rfl
  | cons x xs ih =>
    intro h
    rw [List.countP_cons, List.countP_cons, h x (List.mem_cons_self x xs),
      ih fun a ha => h a (List.mem_cons_of_mem x ha)]

theorem projVsActor_score_k (ents : List Entity) (p a k : ℕ) (proj ow : Entity)
    (o : String) (hpe : ents[p]? = some proj) (ho : proj.owner = some o)
    (hf : ents.findIdx? (fun e => e.name == o) = some k)
    (hke : ents[k]? = some ow) :
    ((projVsActor ents p a)[k]?).map Entity.score =
      some (ow.score + if projHitsB ents p a then jsOr proj.damage 0 else 0) := by
  cases hae : ents[a]? with
  | none =>
    have hmiss : projHitsB ents p a = false := by
      unfold projHitsB
      rw [hpe, hae]
    rw [hmiss]
    have hid : projVsActor ents p a = ents := by
      unfold projVsActor
      rw [hpe, hae]
    rw [hid, hke]
    simp
  | some actor =>
    by_cases hhit : projHitsB ents p a = true
    · obtain ⟨h1, h2, h3⟩ := projHitsB_decomp hpe hae hhit
      obtain ⟨x, hx, hxname⟩ := findIdx?_name_spec hf
      have hxo : ow.name = o := by
        rw [hke] at hx
        injection hx with hxx
        rw [hxx]
        exact hxname
      have hka : k ≠ a := by
        intro he
        subst he
        rw [hae] at hke
        injection hke with hke2
        rw [ho] at h1
        simp only [beq_eq_false_iff_ne, ne_eq, Option.some.injEq] at h1
        exact h1 (by rw [← hxo, hke2])
      rw [projVsActor_of_hit hpe hae hhit, hhit, if_pos rfl]
      have hcv1 : (ents.set a { actor with health := actor.health - jsOr proj.damage 0 }).map combatView = ents.map combatView :=
        map_combatView_set ents a actor _ hae rfl
      have hf1 : (ents.set a { actor with health := actor.health - jsOr proj.damage 0 }).findIdx? (fun e => e.name == o) = some k := by
        rw [findIdx?_congr_names o ents _ 0 hcv1]
        exact hf
      have hk1 : (ents.set a { actor with health := actor.health - jsOr proj.damage 0 })[k]? = some ow := by
        rw [List.getElem?_set_ne (Ne.symm hka)]
        exact hke
      have hco : creditOwner (ents.set a { actor with health := actor.health - jsOr proj.damage 0 }) proj.owner (jsOr proj.damage 0) =
          (ents.set a { actor with health := actor.health - jsOr proj.damage 0 }).set k
            { ow with score := jsOr ow.score 0 + jsOr proj.damage 0 } := by
        unfold creditOwner
        rw [ho]
        dsimp only
        rw [hf1]
        dsimp only
        rw [hk1]
      rw [hco]
      have hklen : k < (ents.set a { actor with health := actor.health - jsOr proj.damage 0 }).length :=
        (List.getElem?_eq_some.mp hk1).1
      cases hp2 : ((ents.set a { actor with health := actor.health - jsOr proj.damage 0 }).set k
          { ow with score := jsOr ow.score 0 + jsOr proj.damage 0 })[p]? with
      | none =>
        dsimp only
        rw [List.getElem?_set_self hklen]
        simp [jsOr_zero]
      | some proj2 =>
        dsimp only
        by_cases hkp : k = p
        · subst hkp
          rw [List.getElem?_set_self (List.getElem?_eq_some.mp hp2).1]
          rw [List.getElem?_set_self hklen] at hp2
          injection hp2 with hp2e
          rw [← hp2e]
          simp [jsOr_zero]
        · rw [List.getElem?_set_ne (fun he => hkp he.symm), List.getElem?_set_self hklen]
          simp [jsOr_zero]
    · rw [Bool.not_eq_true] at hhit
      rw [projVsActor_eq_of_miss hpe hae hhit, hhit, hke]
      simp

theorem innerPass_health_notMem (p a : ℕ) : ∀ (l : List ℕ), a ∉ l →
    ∀ ents : List Entity,
      ((innerPass l p ents)[a]?).map Entity.health = (ents[a]?).map Entity.health := by
  intro l
  induction l with
  | nil => intro _ ents; rfl
  | cons x xs ih =>
    intro hnm ents
    have hax : a ≠ x := fun he => hnm (he ▸ List.mem_cons_self x xs)
    have hrest := ih (fun hm => hnm (List.mem_cons_of_mem x hm)) (projVsActor ents p x)
    exact hrest.trans (projVsActor_health_ne ents p x a hax)

theorem some_of_map_combatView {ents ents' : List Entity} {j : ℕ} {e : Entity}
    (h : ents'.map combatView = ents.map combatView) (hj : ents[j]? = some e) :
    ∃ e', ents'[j]? = some e' ∧ combatView e' = combatView e := by
  have hm := map_combatView_getElem h j
  rw [hj] at hm
  cases hq : ents'[j]? with
  | none => rw [hq] at hm; cases hm
  | some z =>
    rw [hq] at hm
    simp only [Option.map_some', Option.some.injEq] at hm
    exact ⟨z, rfl, hm⟩

theorem innerPass_health (p a : ℕ) : ∀ (l : List ℕ), l.Nodup → p ∉ l → a ∈ l →
    ∀ (ents : List Entity) (proj actor : Entity),
      ents[p]? = some proj → ents[a]? = some actor →
      ((innerPass l p ents)[a]?).map Entity.health =
        some (actor.health - if projHitsB ents p a then jsOr proj.damage 0 else 0) := by
  intro l
  induction l with
  | nil => intro _ _ h; cases h
  | cons x xs ih =>
    intro hnd hp hmem ents proj actor hpe hae
    have hnd' := List.nodup_cons.mp hnd
    rcases List.mem_cons.mp hmem with hax | hax
    · subst hax
      have hap : a ≠ p := fun he => hp (he ▸ List.mem_cons_self a xs)
      have hstep := projVsActor_health_eq ents p a proj actor hpe hae hap
      exact (innerPass_health_notMem p a xs hnd'.1 (projVsActor ents p a)).trans hstep
    · have hax2 : a ≠ x := fun he => hnd'.1 (he ▸ hax)
      have hcv : (projVsActor ents p x).map combatView = ents.map combatView :=
        projVsActor_combatView ents p x
      obtain ⟨proj', hpe2, hcvp⟩ := some_of_map_combatView hcv hpe
      have hh := projVsActor_health_ne ents p x a hax2
      rw [hae] at hh
      obtain ⟨actor', hae2, hah⟩ : ∃ actor', (projVsActor ents p x)[a]? = some actor' ∧
          actor'.health = actor.health := by
        cases hq : (projVsActor ents p x)[a]? with
        | none => rw [hq] at hh; cases hh
        | some z =>
          rw [hq] at hh
          simp only [Option.map_some', Option.some.injEq] at hh
          exact ⟨z, rfl, hh⟩
      have hrec := ih hnd'.2 (fun hm => hp (List.mem_cons_of_mem x hm)) hax
        (projVsActor ents p x) proj' actor' hpe2 hae2
      rw [projHitsB_congr hcv p a, combatView_damage hcvp, hah] at hrec
      exact hrec

theorem innerPass_dead (p : ℕ) : ∀ (l : List ℕ), p ∉ l →
    ∀ (ents : List Entity) (proj : Entity), ents[p]? = some proj →
      ((innerPass l p ents)[p]?).map Entity.dead =
        some (proj.dead || l.any fun a => projHitsB ents p a) := by
  intro l
  induction l with
  | nil =>
    intro _ ents proj hpe
    rw [show innerPass [] p ents = ents from rfl, hpe]
    simp
  | cons x xs ih =>
    intro hp ents proj hpe
    have hxp : x ≠ p := fun he => hp (he ▸ List.mem_cons_self x xs)
    have hstep := projVsActor_dead_p ents p x proj hpe hxp
    have hcv := projVsActor_combatView ents p x
    obtain ⟨proj', hpe2, hcvp⟩ := some_of_map_combatView hcv hpe
    have hdead' : proj'.dead = (proj.dead || projHitsB ents p x) := by
      rw [hpe2] at hstep
      simpa using hstep
    have hrec := ih (fun hm => hp (List.mem_cons_of_mem x hm)) (projVsActor ents p x)
      proj' hpe2
    rw [hdead'] at hrec
    have hany : (xs.any fun a => projHitsB (projVsActor ents p x) p a) =
        xs.any fun a => projHitsB ents p a :=
      any_congr_mem xs fun a _ => projHitsB_congr hcv p a
    rw [hany] at hrec
    rw [show innerPass (x :: xs) p ents = innerPass xs p (projVsActor ents p x) from rfl,
      hrec, List.any_cons, Bool.or_assoc]

theorem innerPass_score (p k : ℕ) (o : String) : ∀ (l : List ℕ), p ∉ l →
    ∀ (ents : List Entity) (proj ow : Entity),
      ents[p]? = some proj → proj.owner = some o →
      ents.findIdx? (fun e => e.name == o) = some k → ents[k]? = some ow →
      ((innerPass l p ents)[k]?).map Entity.score =
        some (ow.score + ((l.countP fun a => projHitsB ents p a : ℕ) : ℚ) *
          jsOr proj.damage 0) := by
  intro l
  induction l with
  | nil =>
    intro _ ents proj ow k2 ho hf hke
    rw [show innerPass [] p ents = ents from rfl, hke]
    simp
  | cons x xs ih =>
    intro hp ents proj ow hpe ho hf hke
    have hstep := projVsActor_score_k ents p x k proj ow o hpe ho hf hke
    have hcv := projVsActor_combatView ents p x
    obtain ⟨proj', hpe2, hcvp⟩ := some_of_map_combatView hcv hpe
    have ho' : proj'.owner = some o := by rw [combatView_owner hcvp]; exact ho
    have hf' : (projVsActor ents p x).findIdx? (fun e => e.name == o) = some k := by
      rw [findIdx?_congr_names o ents _ 0 hcv]
      exact hf
    obtain ⟨ow', hke2, hscore'⟩ : ∃ ow', (projVsActor ents p x)[k]? = some ow' ∧
        ow'.score = ow.score + (if projHitsB ents p x then jsOr proj.damage 0 else 0) := by
      cases hq : (projVsActor ents p x)[k]? with
      | none => rw [hq] at hstep; cases hstep
      | some z =>
        rw [hq] at hstep
        simp only [Option.map_some', Option.some.injEq] at hstep
        exact ⟨z, rfl, hstep⟩
    have hrec := ih (fun hm => hp (List.mem_cons_of_mem x hm)) (projVsActor ents p x)
      proj' ow' hpe2 ho' hf' hke2
    have hcnt : (xs.countP fun a => projHitsB (projVsActor ents p x) p a) =
        xs.countP fun a => projHitsB ents p a :=
      countP_congr_mem xs fun a _ => projHitsB_congr hcv p a
    rw [hscore', combatView_damage hcvp, hcnt] at hrec
    rw [show innerPass (x :: xs) p ents = innerPass xs p (projVsActor ents p x) from rfl,
      hrec]
    congr 1
    rw [List.countP_cons]
    by_cases hx : projHitsB ents p x = true
    · simp only [hx, if_pos rfl]
      push_cast
      ring
    · simp only [hx, Bool.false_eq_true, if_false]
      push_cast
      ring

theorem actorIndices_nodup (ents : List Entity) : (actorIndices ents).Nodup :=
  (List.nodup_range ents.length).filter _

theorem not_mem_actorIndices (ents : List Entity) (p : ℕ) (proj : Entity)
    (hpe : ents[p]? = some proj) (hk : proj.kind = "projectile") :
    p ∉ actorIndices ents := by
  intro hmem
  have h := List.of_mem_filter hmem
  simp only [hpe] at h
  rw [hk] at h
  simp at h

/-- C2: the frozen claim says a projectile is retired on its first AABB hit
and so damages at most one actor per step.  The loop (part_000 lines 621-632)
never re-tests `proj.dead`, so the corrected statement proved here is: over
the actor pass, EVERY actor the projectile's guards admit loses the
projectile's damage, the owner's score is credited once PER hit (not at most
once), and the projectile ends the pass dead iff it started dead or hit at
least one actor. -/
theorem c2_projectile_hits_every_overlapped_actor
    (ents : List Entity) (p : ℕ) (proj : Entity)
    (hpe : ents[p]? = some proj) (hk : proj.kind = "projectile") :
    (∀ a actor, a ∈ actorIndices ents → ents[a]? = some actor →
      ((innerPass (actorIndices ents) p ents)[a]?).map Entity.health =
        some (actor.health - if projHitsB ents p a then jsOr proj.damage 0 else 0)) ∧
    ((innerPass (actorIndices ents) p ents)[p]?).map Entity.dead =
      some (proj.dead || (actorIndices ents).any fun a => projHitsB ents p a) ∧
    ∀ o k ow, proj.owner = some o →
      ents.findIdx? (fun e => e.name == o) = some k → ents[k]? = some ow →
      ((innerPass (actorIndices ents) p ents)[k]?).map Entity.score =
        some (ow.score +
          (((actorIndices ents).countP fun a => projHitsB ents p a : ℕ) : ℚ) *
            jsOr proj.damage 0) := by
  have hnd := actorIndices_nodup ents
  have hnp := not_mem_actorIndices ents p proj hpe hk
  refine ⟨?_, ?_, ?_⟩
  · intro a actor hmem hae
    exact innerPass_health p a (actorIndices ents) hnd hnp hmem ents proj actor hpe hae
  · exact innerPass_dead p (actorIndices ents) hnp ents proj hpe
  · intro o k ow ho hf hke
    exact innerPass_score p k o (actorIndices ents) hnp ents proj ow hpe ho hf hke

/-- Scene exercising the projectile pass: projectile "P" (damage 30, owned by
the distant actor "O") overlaps both actors "A" and "B". -/
def c2ents : List Entity :=
  [{ name := "O", posX := 100, posY := 100 : Entity },
   { name := "P", kind := "projectile", owner := some "O", damage := 30,
     sizeW := 5 : Entity },
   { name := "A", posX := 1 : Entity },
   { name := "B", posX := 3 : Entity }]

set_option maxHeartbeats 1000000 in
/-- Witness for C2: on the concrete scene both overlapped actors lose 30
health, the projectile ends dead, and the owner is credited 60 = 2 × 30. -/
theorem c2_projectile_hits_every_overlapped_actor_witness :
    ((innerPass (actorIndices c2ents) 1 c2ents)[2]?).map Entity.health = some 70 ∧
    ((innerPass (actorIndices c2ents) 1 c2ents)[3]?).map Entity.health = some 70 ∧
    ((innerPass (actorIndices c2ents) 1 c2ents)[1]?).map Entity.dead = some true ∧
    ((innerPass (actorIndices c2ents) 1 c2ents)[0]?).map Entity.score = some 60 := by
  obtain ⟨hh, hd, hs⟩ := c2_projectile_hits_every_overlapped_actor c2ents 1
    { name := "P", kind := "projectile", owner := some "O", damage := 30,
      sizeW := 5 : Entity } rfl rfl
  have hA := hh 2 { name := "A", posX := 1 : Entity } (by decide) rfl
  have hB := hh 3 { name := "B", posX := 3 : Entity } (by decide) rfl
  have hS := hs "O" 0 { name := "O", posX := 100, posY := 100 : Entity }
    rfl (by decide) rfl
  refine ⟨?_, ?_, ?_, ?_⟩
  · rw [hA]
    norm_num +decide [projHitsB, checkOverlap, teamsMatch, strTruthy, jsOr, c2ents]
  · rw [hB]
    norm_num +decide [projHitsB, checkOverlap, teamsMatch, strTruthy, jsOr, c2ents]
  · rw [hd]
    norm_num +decide [projHitsB, checkOverlap, teamsMatch, strTruthy, jsOr, c2ents,
      actorIndices, List.range_succ, List.filter_cons, List.any_cons]
  · rw [hS]
    norm_num +decide [projHitsB, checkOverlap, teamsMatch, strTruthy, jsOr, c2ents,
      actorIndices, List.range_succ, List.filter_cons, List.countP_cons]

set_option maxHeartbeats 4000000 in
/-- Counterexample for C2 as frozen: in one combat step the single projectile
(damage 30, wide enough to overlap both actors) damages BOTH actors
(health 100 → 70 each) and only then is reaped, because the inner loop never
rechecks `proj.dead` after setting it. -/
theorem c2_single_hit_counterexample :
    (handlePvp [{ name := "P", kind := "projectile", damage := 30, sizeW := 5 : Entity },
        { name := "A", posX := 1 : Entity },
        { name := "B", posX := 3 : Entity }]).map
      (fun e => (e.health, e.dead)) =
      [(100, true), (70, false), (70, false)] := by
  norm_num +decide [handlePvp, actorIndices, projIndices, innerPass, projVsActor,
    contactHit, creditOwner, pairsOf, teamsMatch, strTruthy, checkOverlap, jsOr,
    List.range_succ, List.filter_cons]

/-- Grounded platformer player standing on the floor below, jump key `" "`
bound and (in the C1 scenario) held. -/
def c1player : Entity :=
  { name := "player"
    posX := 2
    posY := 9
    physics := "dynamic"
    onGround := true
    controls := some { jump := some " " } }

/-- The static floor of the C1 scenario. -/
def c1floor : Entity :=
  { name := "floor", posY := 10, sizeW := 20, physics := "static" }

set_option maxHeartbeats 4000000 in
/-- C1: the claim (and spec §4.5) say a grounded dynamic entity with the jump
key held gets `vy = -jumpForce` and `onGround` cleared, re-triggering every
step.  The code cannot do this: `ent.onGround = false` (part_000 line 459)
runs before the jump test reads `ent.onGround` (line 471), and the
unconditional `ent.vy = vy` (line 477) writes back the pre-jump vertical
velocity.  Concretely: the grounded player with jump held, gravity 15 and
dt = 1/10 ends the step with `vy = 0` (never `-jumpForce = -10`),
`onGround = true` and `posY = 9` — it never leaves the ground. -/
theorem c1_jump_never_fires :
    ((updateStep { gravity := 15 } (fun k => k == " ") 0 (1/10)
        { entities := [c1player, c1floor]
          multiplayer := false }).entities.map
      (fun e => (e.posY, e.vy, e.onGround))) =
      [(9, 0, true), (10, 0, false)] := by
  norm_num +decide [updateStep, stepEntities, physicsLoop, stepEntity, stepEntityCore,
    controlPhase, controlVel, collideStatics, gravityPhase, integratePhase,
    collidePhase, agePhase, deathPhase, rollbackPhase, tryAttack, keyHeld, strTruthy,
    handlePvp, innerPass, actorIndices, projIndices, pairsOf, contactHit, projVsActor,
    creditOwner, teamsMatch, checkOverlap, resolveCollision, overlapX, overlapY,
    fireEvents, jsOr, c1player, c1floor, List.range_succ, List.filter_cons]

set_option maxHeartbeats 4000000 in
/-- Counterexample for C3 as frozen: in the claimed scenario (dynamic entity
at (0,9), size 1×1, vy = +5, dt = 1, gravity 0, static slab at (0,10) size
20×1) the integrated position is y = 14, PAST the slab: the post-move AABB
test sees no overlap, so nothing is resolved — the entity tunnels through
and ends at y = 14 with vy = 5 and onGround = false, not at y = 9. -/
theorem c3_claimed_scenario_tunnels :
    ((updateStep {} (fun _ => false) 0 1
        { entities :=
            [{ name := "mover", physics := "dynamic", posY := 9, vy := 5 : Entity },
             { name := "slab", physics := "static", posY := 10, sizeW := 20 : Entity }]
          multiplayer := false }).entities.map (fun e => (e.posY, e.vy, e.onGround))) =
      [(14, 5, false), (10, 0, false)] := by
  norm_num +decide [updateStep, stepEntities, physicsLoop, stepEntity, stepEntityCore,
    controlPhase, controlVel, collideStatics, gravityPhase, integratePhase,
    collidePhase, agePhase, deathPhase, rollbackPhase, tryAttack, keyHeld, strTruthy,
    handlePvp, innerPass, actorIndices, projIndices, pairsOf, contactHit, projVsActor,
    creditOwner, teamsMatch, checkOverlap, resolveCollision, overlapX, overlapY,
    fireEvents, jsOr, List.range_succ, List.filter_cons]

set_option maxHeartbeats 4000000 in
/-- C3 (amended): the claimed landing behavior does occur when the integrated
position still overlaps the slab.  With vy = 1/2 (all else as in the claim)
the entity moves to y = 9.5, the overlap with the slab is detected, the
vertical overlap 1/2 is the minimum axis, and the entity is pushed back up to
y = 9 with vy = 0 and onGround = true. -/
theorem c3_landing_on_slab :
    ((updateStep {} (fun _ => false) 0 1
        { entities :=
            [{ name := "mover", physics := "dynamic", posY := 9, vy := 1/2 : Entity },
             { name := "slab", physics := "static", posY := 10, sizeW := 20 : Entity }]
          multiplayer := false }).entities.map (fun e => (e.posY, e.vy, e.onGround))) =
      [(9, 0, true), (10, 0, false)] := by
  norm_num +decide [updateStep, stepEntities, physicsLoop, stepEntity, stepEntityCore,
    controlPhase, controlVel, collideStatics, gravityPhase, integratePhase,
    collidePhase, agePhase, deathPhase, rollbackPhase, tryAttack, keyHeld, strTruthy,
    handlePvp, innerPass, actorIndices, projIndices, pairsOf, contactHit, projVsActor,
    creditOwner, teamsMatch, checkOverlap, resolveCollision, overlapX, overlapY,
    fireEvents, jsOr, List.range_succ, List.filter_cons]

end HoloStage
